import Mathlib

/-!
Verification of the work-order store and credential routines of the
`workorders` repository (`src/workorders/db.py`), as a shallow embedding.

The embedding models:
* the `work_orders` SQLite table (schema of `init_db`, including its
  storage-level CHECK constraints on `priority` and `status`) as a list of
  rows plus the AUTOINCREMENT sequence counter;
* the store operations `add_work_order`, `list_work_orders`,
  `close_work_order`, `update_work_order`, `list_work_orders_by_machine`,
  `get_work_order_by_id`, `delete_all_work_orders`,
  `delete_work_orders_by_machine` and `delete_closed_older_than`;
* SQLite's `datetime(...)` parser (on ISO-8601-style text inputs) and the
  `replace(x,'Z','+00:00')` call used by `delete_closed_older_than`;
* `utc_now_iso`, with the current instant passed explicitly as a Unix
  timestamp (seconds);
* the credential routines `_hash_password` / `_verify_password` down to
  PBKDF2-HMAC-SHA256, CPython's lenient `base64.b64decode`, `str.split`
  with maxsplit, and `int(...)` parsing.

Operations that can hit a storage-level constraint return `Except`;
an error means the statement aborted and the store is unchanged.
-/

set_option maxRecDepth 1000000

namespace Workorders

/-- One row of the `work_orders` table.  Column types follow the schema in
`init_db`: NOT NULL columns are plain `String`, nullable columns are
`Option String`. -/
structure WorkOrderRow where
  id : Nat
  machine_id : String
  issue : String
  priority : String
  status : String
  created_at : String
  closed_at : Option String
  assigned_to : Option String
  notes : Option String
  updated_at : Option String
deriving DecidableEq, Repr

/-- The `work_orders` table: rows in insertion order, plus the
AUTOINCREMENT sequence (the largest id ever assigned). -/
structure WorkOrdersDB where
  rows : List WorkOrderRow
  seq : Nat
deriving DecidableEq, Repr

def emptyDB : WorkOrdersDB := ⟨[], 0⟩

/-- Errors surfaced by the storage layer (sqlite3.IntegrityError for a
violated CHECK constraint). -/
inductive DBError where
  | constraintViolation
deriving DecidableEq, Repr

/-- The schema's CHECK constraint `priority IN ('low', 'med', 'high')`. -/
def validPriority (p : String) : Bool :=
  p == "low" || p == "med" || p == "high"

/-- The schema's CHECK constraint `status IN ('open', 'closed')`. -/
def validStatus (s : String) : Bool :=
  s == "open" || s == "closed"

/-- All CHECK constraints of the `work_orders` schema, evaluated on one
row.  This is the storage-level check: it lives in the table model, not in
the embedded application functions. -/
def checkRow (r : WorkOrderRow) : Bool :=
  validPriority r.priority && validStatus r.status

/-- INSERT of one row, applying the schema CHECK constraints.  On
violation the statement aborts and the table is unchanged. -/
def insertRow (db : WorkOrdersDB) (r : WorkOrderRow) :
    Except DBError WorkOrdersDB :=
  if checkRow r then .ok ⟨db.rows ++ [r], db.seq⟩ else .error .constraintViolation

/-- UPDATE of every row matching `φ` by `f`, applying the schema CHECK
constraints to each updated row.  Returns the statement's rowcount (the
number of matched rows).  On a CHECK violation the whole statement aborts
and the table is unchanged. -/
def sqlUpdate (db : WorkOrdersDB) (φ : WorkOrderRow → Bool)
    (f : WorkOrderRow → WorkOrderRow) : Except DBError (Nat × WorkOrdersDB) :=
  if db.rows.all (fun r => !φ r || checkRow (f r)) then
    .ok (db.rows.countP φ, ⟨db.rows.map (fun r => if φ r then f r else r), db.seq⟩)
  else
    .error .constraintViolation

/-- `ORDER BY id DESC` (insertion sort; ids are unique in any reachable
store, so stability is irrelevant). -/
def insertDesc (r : WorkOrderRow) : List WorkOrderRow → List WorkOrderRow
  | [] => [r]
  | x :: xs => if x.id ≤ r.id then r :: x :: xs else x :: insertDesc r xs

def sortByIdDesc (l : List WorkOrderRow) : List WorkOrderRow :=
  l.foldr insertDesc []

/-- Python truthiness of an optional string (`if status:`): `None` and the
empty string are falsy. -/
def pyTruthy : Option String → Bool
  | none => false
  | some s => !(s == "")

/-- The row the INSERT of `add_work_order` builds:
`VALUES (?, ?, ?, 'open', ?, NULL, ?, ?, ?)` with `created_at` and
`updated_at` both the call's `utc_now_iso()` string, under the next
AUTOINCREMENT id. -/
def newRow (wid : Nat) (machine_id issue priority : String)
    (assigned_to notes : Option String) (now : String) : WorkOrderRow :=
  ⟨wid, machine_id, issue, priority, "open", now, none, assigned_to, notes, some now⟩

/-- `add_work_order`: INSERT a new open row.  `now` is the string
`utc_now_iso()` returned for this call; it is stored in both `created_at`
and `updated_at`.  Returns `cur.lastrowid`.  (The best-effort SMS
notification has no effect on the store and is not modelled.) -/
def add_work_order (db : WorkOrdersDB) (machine_id issue priority : String)
    (assigned_to notes : Option String) (now : String) :
    Except DBError (Nat × WorkOrdersDB) :=
  let wid := db.seq + 1
  match insertRow ⟨db.rows, wid⟩ (newRow wid machine_id issue priority assigned_to notes now) with
  | .ok db' => .ok (wid, db')
  | .error e => .error e

/-- `list_work_orders`: SELECT with optional status filter,
`ORDER BY id DESC`.  The filter applies only when `status` is truthy. -/
def list_work_orders (db : WorkOrdersDB) (status : Option String) :
    List WorkOrderRow :=
  if pyTruthy status then
    sortByIdDesc (db.rows.filter (fun r => r.status == status.getD ""))
  else
    sortByIdDesc db.rows

/-- `list_work_orders_by_machine`: same as `list_work_orders`, also scoped
to one `machine_id`. -/
def list_work_orders_by_machine (db : WorkOrdersDB) (machine_id : String)
    (status : Option String) : List WorkOrderRow :=
  if pyTruthy status then
    sortByIdDesc (db.rows.filter
      (fun r => r.machine_id == machine_id && r.status == status.getD ""))
  else
    sortByIdDesc (db.rows.filter (fun r => r.machine_id == machine_id))

/-- `close_work_order`: UPDATE to `closed`, guarded by
`WHERE id = ? AND status = 'open'`; sets `closed_at` and `updated_at` to
the same `utc_now_iso()` string.  Returns the rowcount. -/
def closeRowF (now : String) (r : WorkOrderRow) : WorkOrderRow :=
  { r with status := "closed", closed_at := some now, updated_at := some now }

def close_work_order (db : WorkOrdersDB) (work_order_id : Nat) (now : String) :
    Except DBError (Nat × WorkOrdersDB) :=
  sqlUpdate db (fun r => r.id == work_order_id && r.status == "open") (closeRowF now)

/-- The SET clause of `update_work_order` applied to one row: a supplied
field overwrites the column, an unsupplied (`none`) field contributes no
SET clause, and `updated_at` is always set. -/
def updateRowF (issue priority assigned_to notes : Option String) (now : String)
    (r : WorkOrderRow) : WorkOrderRow :=
  { r with
    issue := issue.getD r.issue,
    priority := priority.getD r.priority,
    assigned_to := (match assigned_to with | some a => some a | none => r.assigned_to),
    notes := (match notes with | some n => some n | none => r.notes),
    updated_at := some now }

/-- `update_work_order`: dynamic partial UPDATE.  A `none` argument means
the field was not supplied and its SET clause is not built; if no field is
supplied the function returns 0 without touching the store; otherwise
`updated_at` is always set to `now`. -/
def update_work_order (db : WorkOrdersDB) (work_order_id : Nat)
    (issue priority assigned_to notes : Option String) (now : String) :
    Except DBError (Nat × WorkOrdersDB) :=
  if issue.isNone && priority.isNone && assigned_to.isNone && notes.isNone then
    .ok (0, db)
  else
    sqlUpdate db (fun r => r.id == work_order_id)
      (updateRowF issue priority assigned_to notes now)

/-- `get_work_order_by_id`: SELECT one row by id (`fetchone`). -/
def get_work_order_by_id (db : WorkOrdersDB) (work_order_id : Nat) :
    Option WorkOrderRow :=
  db.rows.find? (fun r => r.id == work_order_id)

/-- `delete_all_work_orders`. -/
def delete_all_work_orders (db : WorkOrdersDB) : Nat × WorkOrdersDB :=
  (db.rows.length, ⟨[], db.seq⟩)

/-- `delete_work_orders_by_machine`. -/
def delete_work_orders_by_machine (db : WorkOrdersDB) (machine_id : String) :
    Nat × WorkOrdersDB :=
  (db.rows.countP (fun r => r.machine_id == machine_id),
   ⟨db.rows.filter (fun r => !(r.machine_id == machine_id)), db.seq⟩)

/-! ### Calendar arithmetic and SQLite `datetime()` on text inputs

`delete_closed_older_than` runs
`datetime(replace(closed_at,'Z','+00:00')) < datetime('now','-N days')`.
SQLite renders both sides as normalized `YYYY-MM-DD HH:MM:SS` text and
compares; on a parse failure `datetime` yields NULL and the comparison is
not satisfied.  We model timestamps as Unix seconds (an `Int`); for
calendar-valid inputs the numeric order coincides with SQLite's text
order.  The parser below models SQLite's ISO-8601 text format (its
numeric Julian-day input format is outside the modelled fragment). -/

def isDigitChar (c : Char) : Bool := 48 ≤ c.toNat && c.toNat ≤ 57

def digitVal (c : Char) : Nat := c.toNat - 48

def getDigits2 : List Char → Option (Nat × List Char)
  | a :: b :: rest =>
      if isDigitChar a && isDigitChar b then
        some (digitVal a * 10 + digitVal b, rest)
      else none
  | _ => none

def getDigits4 : List Char → Option (Nat × List Char)
  | a :: b :: c :: d :: rest =>
      if isDigitChar a && isDigitChar b && isDigitChar c && isDigitChar d then
        some (digitVal a * 1000 + digitVal b * 100 + digitVal c * 10 + digitVal d, rest)
      else none
  | _ => none

def leapYear (y : Int) : Bool := (y % 4 == 0 && y % 100 != 0) || y % 400 == 0

def daysInMonth (y m : Int) : Int :=
  if m == 2 then (if leapYear y then 29 else 28)
  else if m == 4 || m == 6 || m == 9 || m == 11 then 30
  else 31

/-- Days from the civil date `(y, m, d)` to 1970-01-01 (negative before
the epoch).  Standard days-from-civil algorithm, using floor division. -/
def daysFromCivil (y m d : Int) : Int :=
  let y' := if m ≤ 2 then y - 1 else y
  let era := y' / 400
  let yoe := y' - era * 400
  let mp := (m + 9) % 12
  let doy := (153 * mp + 2) / 5 + d - 1
  let doe := yoe * 365 + yoe / 4 - yoe / 100 + doy
  era * 146097 + doe - 719468

/-- Inverse of `daysFromCivil` (for valid civil dates). -/
def civilFromDays (z : Int) : Int × Int × Int :=
  let z' := z + 719468
  let era := z' / 146097
  let doe := z' - era * 146097
  let yoe := (doe - doe / 1460 + doe / 36524 - doe / 146096) / 365
  let y := yoe + era * 400
  let doy := doe - (365 * yoe + yoe / 4 - yoe / 100)
  let mp := (5 * doy + 2) / 153
  let d := doy - (153 * mp + 2) / 5 + 1
  let m := mp + (if mp < 10 then 3 else -9)
  (if m ≤ 2 then y + 1 else y, m, d)

def civilToEpoch (y mo d h mi s : Int) : Int :=
  daysFromCivil y mo d * 86400 + h * 3600 + mi * 60 + s

def skipSpaces : List Char → List Char
  | c :: rest => if c == ' ' then skipSpaces rest else c :: rest
  | [] => []

/-- SQLite skips any run of spaces and `T` between date and time. -/
def skipSepRun : List Char → List Char
  | c :: rest => if c == ' ' || c == 'T' then skipSepRun rest else c :: rest
  | [] => []

def skipDigits : List Char → List Char
  | c :: rest => if isDigitChar c then skipDigits rest else c :: rest
  | [] => []

/-- `HH:MM[:SS[.frac]]` with `HH ≤ 24`, `MM ≤ 59`, `SS ≤ 59`; a fraction
needs at least one digit and is truncated (SQLite's rendered text keeps
whole seconds). -/
def parseTime (l : List Char) : Option (Nat × Nat × Nat × List Char) :=
  match getDigits2 l with
  | some (h, ':' :: r1) =>
      (match getDigits2 r1 with
       | some (mi, r2) =>
           if h ≤ 24 && mi ≤ 59 then
             match r2 with
             | ':' :: r3 =>
                 (match getDigits2 r3 with
                  | some (s, r4) =>
                      if s ≤ 59 then
                        match r4 with
                        | '.' :: c :: r6 =>
                            if isDigitChar c then some (h, mi, s, skipDigits r6) else none
                        | '.' :: [] => none
                        | _ => some (h, mi, s, r4)
                      else none
                  | _ => none)
             | _ => some (h, mi, 0, r2)
           else none
       | _ => none)
  | _ => none

def parseTzHM (sgn : Int) (l : List Char) : Option Int :=
  match getDigits2 l with
  | some (h, ':' :: r) =>
      (match getDigits2 r with
       | some (m, r2) =>
           if h ≤ 14 && m ≤ 59 then
             match skipSpaces r2 with
             | [] => some (sgn * (h * 60 + m))
             | _ => none
           else none
       | _ => none)
  | _ => none

/-- Optional trailing `±HH:MM` timezone (offset in minutes), with
`HH ≤ 14`, `MM ≤ 59`; trailing spaces allowed, nothing else. -/
def parseTz (l : List Char) : Option Int :=
  match skipSpaces l with
  | [] => some 0
  | '+' :: r => parseTzHM 1 r
  | '-' :: r => parseTzHM (-1) r
  | _ => none

/-- Time-of-day plus timezone offset (minutes) after the date: an empty
remainder means midnight with no offset, otherwise a time (and optional
offset) must parse. -/
def sqliteTimeTz : List Char → Option (Nat × Nat × Nat × Int)
  | [] => some (0, 0, 0, 0)
  | c :: r =>
      match parseTime (c :: r) with
      | some (h, mi, s, r5) =>
          (match parseTz r5 with
           | some off => some (h, mi, s, off)
           | none => none)
      | none => none

/-- The date-time grammar after the optional leading year sign:
`YYYY-MM-DD` with `1 ≤ MM ≤ 12`, `1 ≤ DD ≤ 31` (no per-month day
validation), then the optional time and offset after a run of
`T`/spaces. -/
def sqliteDateBody (sg : Int × List Char) : Option Int :=
  match getDigits4 sg.2 with
  | some (y, '-' :: r1) =>
      (match getDigits2 r1 with
       | some (mo, '-' :: r2) =>
           (match getDigits2 r2 with
            | some (d, r3) =>
                if 1 ≤ mo && mo ≤ 12 && 1 ≤ d && d ≤ 31 then
                  match sqliteTimeTz (skipSepRun r3) with
                  | some (h, mi, s, off) =>
                      some (civilToEpoch (sg.1 * y) mo d h mi s - off * 60)
                  | none => none
                else none
            | _ => none)
       | _ => none)
  | _ => none

/-- SQLite `datetime()` on an ISO-8601-style text input, as Unix seconds
(UTC).  Returns `none` exactly where SQLite returns NULL.  (SQLite's
numeric Julian-day input format is outside the modelled fragment.) -/
def sqliteDatetimeList (l : List Char) : Option Int :=
  match l with
  | c :: r => if c == '-' then sqliteDateBody (-1, r) else sqliteDateBody (1, c :: r)
  | [] => none

def sqliteDatetime (s : String) : Option Int := sqliteDatetimeList s.data

def replaceZChar (c : Char) : List Char :=
  if c == 'Z' then ['+', '0', '0', ':', '0', '0'] else [c]

/-- SQL `replace(s, 'Z', '+00:00')`: every `Z` is replaced. -/
def replaceZ (s : String) : String := ⟨(s.data.map replaceZChar).flatten⟩

def natPad2 (n : Nat) : String := if n < 10 then "0" ++ toString n else toString n

def natPad4 (n : Nat) : String :=
  if n < 10 then "000" ++ toString n
  else if n < 100 then "00" ++ toString n
  else if n < 1000 then "0" ++ toString n
  else toString n

/-- `utc_now_iso`, with the current instant `t` passed as Unix seconds:
the UTC time at whole-second precision, ISO-8601, with the `+00:00`
suffix of `isoformat()` replaced by `Z`. -/
def utc_now_iso (t : Int) : String :=
  let c := civilFromDays (t / 86400)
  let sod := (t % 86400).toNat
  natPad4 c.1.toNat ++ "-" ++ natPad2 c.2.1.toNat ++ "-" ++ natPad2 c.2.2.toNat ++ "T" ++
    natPad2 (sod / 3600) ++ ":" ++ natPad2 (sod % 3600 / 60) ++ ":" ++ natPad2 (sod % 60) ++ "Z"

/-- The WHERE condition of `delete_closed_older_than`, for one row:
`status = 'closed' AND closed_at IS NOT NULL AND
datetime(replace(closed_at,'Z','+00:00')) < datetime('now','-days days')`.
`now` is the current instant as Unix seconds; the cutoff is `now` minus
`days` whole days. -/
def deleteCond (now : Int) (days : Nat) (r : WorkOrderRow) : Bool :=
  r.status == "closed" &&
    (match r.closed_at with
     | none => false
     | some c =>
         match sqliteDatetime (replaceZ c) with
         | none => false
         | some t => decide (t < now - (days : Int) * 86400))

/-- `delete_closed_older_than`: DELETE with the condition above; returns
the rowcount. -/
def delete_closed_older_than (db : WorkOrdersDB) (days : Nat) (now : Int) :
    Nat × WorkOrdersDB :=
  (db.rows.countP (deleteCond now days),
   ⟨db.rows.filter (fun r => !(deleteCond now days r)), db.seq⟩)

/-! ### SHA-256, HMAC, PBKDF2 (the primitives behind `hashlib.pbkdf2_hmac`)

Bytes are `Nat`s below 256; 32-bit words are `Nat`s reduced `% 2^32`. -/

/-- 2^32, the modulus for 32-bit arithmetic. -/
def M32 : Nat := 4294967296

def rotr (n x : Nat) : Nat := (x >>> n) ||| ((x <<< (32 - n)) % M32)

def bsig0 (x : Nat) : Nat := (rotr 2 x) ^^^ (rotr 13 x) ^^^ (rotr 22 x)

def bsig1 (x : Nat) : Nat := (rotr 6 x) ^^^ (rotr 11 x) ^^^ (rotr 25 x)

def ssig0 (x : Nat) : Nat := (rotr 7 x) ^^^ (rotr 18 x) ^^^ (x >>> 3)

def ssig1 (x : Nat) : Nat := (rotr 17 x) ^^^ (rotr 19 x) ^^^ (x >>> 10)

/-- The 64 SHA-256 round constants of FIPS 180-4 (decimal). -/
def sha256K : List Nat :=
  [1116352408, 1899447441, 3049323471, 3921009573, 961987163,
   1508970993, 2453635748, 2870763221, 3624381080, 310598401,
   607225278, 1426881987, 1925078388, 2162078206, 2614888103,
   3248222580, 3835390401, 4022224774, 264347078, 604807628,
   770255983, 1249150122, 1555081692, 1996064986, 2554220882,
   2821834349, 2952996808, 3210313671, 3336571891, 3584528711,
   113926993, 338241895, 666307205, 773529912, 1294757372,
   1396182291, 1695183700, 1986661051, 2177026350, 2456956037,
   2730485921, 2820302411, 3259730800, 3345764771, 3516065817,
   3600352804, 4094571909, 275423344, 430227734, 506948616,
   659060556, 883997877, 958139571, 1322822218, 1537002063,
   1747873779, 1955562222, 2024104815, 2227730452, 2361852424,
   2428436474, 2756734187, 3204031479, 3329325298]

structure Hash8 where
  h0 : Nat
  h1 : Nat
  h2 : Nat
  h3 : Nat
  h4 : Nat
  h5 : Nat
  h6 : Nat
  h7 : Nat
deriving DecidableEq, Repr

/-- The eight SHA-256 initial hash values of FIPS 180-4 (decimal). -/
def sha256Init : Hash8 :=
  ⟨1779033703, 3144134277, 1013904242, 2773480762,
   1359893119, 2600822924, 528734635, 1541459225⟩

/-- Extend the 16 message-schedule words to 64.  The accumulator holds the
words produced so far in reverse order, so the recurrence reads fixed
positions. -/
def scheduleExtend : Nat → List Nat → List Nat
  | 0, acc => acc
  | n + 1, acc =>
      let g := fun i => acc.getD i 0
      scheduleExtend n (((g 15 + ssig0 (g 14) + g 6 + ssig1 (g 1)) % M32) :: acc)

def roundStep (st : Hash8) (kw : Nat × Nat) : Hash8 :=
  let ⟨a, b, c, d, e, f, g, h⟩ := st
  let t1 := (h + bsig1 e + ((e &&& f) ^^^ ((M32 - 1 - e) &&& g)) + kw.1 + kw.2) % M32
  let t2 := (bsig0 a + ((a &&& b) ^^^ (a &&& c) ^^^ (b &&& c))) % M32
  ⟨(t1 + t2) % M32, a, b, c, (d + t1) % M32, e, f, g⟩

def bytesToWords : List Nat → List Nat
  | b0 :: b1 :: b2 :: b3 :: rest =>
      (b0 * 16777216 + b1 * 65536 + b2 * 256 + b3) :: bytesToWords rest
  | _ => []

def compress (st : Hash8) (block : List Nat) : Hash8 :=
  let w16 := bytesToWords block
  let ws := (scheduleExtend 48 w16.reverse).reverse
  let r := (ws.zip sha256K).foldl roundStep st
  ⟨(st.h0 + r.h0) % M32, (st.h1 + r.h1) % M32, (st.h2 + r.h2) % M32, (st.h3 + r.h3) % M32,
   (st.h4 + r.h4) % M32, (st.h5 + r.h5) % M32, (st.h6 + r.h6) % M32, (st.h7 + r.h7) % M32⟩

def chunk64Go : Nat → List Nat → List (List Nat)
  | _, [] => []
  | 0, _ => []
  | fuel + 1, a :: l => (a :: l).take 64 :: chunk64Go fuel ((a :: l).drop 64)

def chunk64 (l : List Nat) : List (List Nat) := chunk64Go l.length l

def sha256Pad (msg : List Nat) : List Nat :=
  let len := msg.length
  let padLen := (55 + 64 - len % 64) % 64 + 1
  let bitLen := len * 8
  msg ++ (128 :: List.replicate (padLen - 1) 0) ++
    [bitLen / 72057594037927936 % 256, bitLen / 281474976710656 % 256,
     bitLen / 1099511627776 % 256, bitLen / 4294967296 % 256,
     bitLen / 16777216 % 256, bitLen / 65536 % 256, bitLen / 256 % 256, bitLen % 256]

def wordBytes (w : Nat) : List Nat :=
  [w / 16777216 % 256, w / 65536 % 256, w / 256 % 256, w % 256]

/-- SHA-256 of a byte list, as its 32-byte digest. -/
def sha256 (msg : List Nat) : List Nat :=
  let final := (chunk64 (sha256Pad msg)).foldl compress sha256Init
  wordBytes final.h0 ++ wordBytes final.h1 ++ wordBytes final.h2 ++ wordBytes final.h3 ++
  wordBytes final.h4 ++ wordBytes final.h5 ++ wordBytes final.h6 ++ wordBytes final.h7

/-- HMAC-SHA256 (block size 64). -/
def hmacSha256 (key msg : List Nat) : List Nat :=
  let k0 := if 64 < key.length then sha256 key else key
  let k := k0 ++ List.replicate (64 - k0.length) 0
  sha256 ((k.map (fun b => b ^^^ 92)) ++ sha256 ((k.map (fun b => b ^^^ 54)) ++ msg))

def xorBytes (a b : List Nat) : List Nat := a.zipWith (fun x y => x ^^^ y) b

def pbkdf2Loop : Nat → List Nat → List Nat → List Nat → List Nat
  | 0, _, _, acc => acc
  | n + 1, pw, u, acc =>
      let u' := hmacSha256 pw u
      pbkdf2Loop n pw u' (xorBytes acc u')

/-- PBKDF2-HMAC-SHA256 with the derived-key length equal to the hash
length (32 bytes), which is what `hashlib.pbkdf2_hmac("sha256", ..)` uses
when `dklen` is omitted: a single block `U_1 ^ U_2 ^ ... ^ U_iters` with
`U_1 = HMAC(pw, salt || 00 00 00 01)`, `U_{i+1} = HMAC(pw, U_i)`.
Meaningful for `1 ≤ iterations` (`hashlib` raises otherwise). -/
def pbkdf2HmacSha256 (pw salt : List Nat) (iterations : Nat) : List Nat :=
  let u1 := hmacSha256 pw (salt ++ [0, 0, 0, 1])
  pbkdf2Loop (iterations - 1) pw u1 u1

/-- UTF-8 encoding of one scalar value (`str.encode("utf-8")` per char). -/
def utf8Char (n : Nat) : List Nat :=
  if n < 128 then [n]
  else if n < 2048 then [192 + n / 64, 128 + n % 64]
  else if n < 65536 then [224 + n / 4096, 128 + n / 64 % 64, 128 + n % 64]
  else [240 + n / 262144, 128 + n / 4096 % 64, 128 + n / 64 % 64, 128 + n % 64]

/-- `password.encode("utf-8")` as a byte list. -/
def utf8Encode (s : String) : List Nat :=
  (s.data.map (fun c => utf8Char c.toNat)).flatten

/-! ### base64, `int(...)`, `str.split("$", 3)` and the credential functions -/

/-- Code of the base64 character for a 6-bit value (standard alphabet). -/
def b64EncVal (n : Nat) : Nat :=
  if n < 26 then 65 + n
  else if n < 52 then 71 + n
  else if n < 62 then n - 52 + 48
  else if n == 62 then 43
  else 47

/-- 6-bit value of a base64 character code, `none` for a non-alphabet
character (`=` included). -/
def b64DecVal (c : Nat) : Option Nat :=
  if 65 ≤ c && c ≤ 90 then some (c - 65)
  else if 97 ≤ c && c ≤ 122 then some (c - 97 + 26)
  else if 48 ≤ c && c ≤ 57 then some (c - 48 + 52)
  else if c == 43 then some 62
  else if c == 47 then some 63
  else none

/-- `base64.b64encode`: byte list to base64 character-code list (61 is
`=`). -/
def b64EncodeBytes : List Nat → List Nat
  | b0 :: b1 :: b2 :: rest =>
      b64EncVal (b0 / 4) :: b64EncVal (b0 % 4 * 16 + b1 / 16) ::
      b64EncVal (b1 % 16 * 4 + b2 / 64) :: b64EncVal (b2 % 64) :: b64EncodeBytes rest
  | [b0, b1] => [b64EncVal (b0 / 4), b64EncVal (b0 % 4 * 16 + b1 / 16), b64EncVal (b1 % 16 * 4), 61]
  | [b0] => [b64EncVal (b0 / 4), b64EncVal (b0 % 4 * 16), 61, 61]
  | [] => []

/-- CPython's `binascii.a2b_base64` in its default non-strict mode, which
is what `base64.b64decode` calls: characters outside the alphabet are
discarded; `=` only counts as padding once a quad holds at least two data
characters, and decoding stops as soon as padding completes a quad; a
quad left incomplete at the end is an error (`none`).  State:
input, quad position, pending bits, pad count, output accumulator
(reversed). -/
def b64DecodeGo : List Nat → Nat → Nat → Nat → List Nat → Option (List Nat)
  | [], 0, _, _, acc => some acc.reverse
  | [], _ + 1, _, _, _ => none
  | c :: rest, quadPos, leftchar, pads, acc =>
      if c == 61 then
        if 2 ≤ quadPos then
          if 4 ≤ quadPos + pads + 1 then some acc.reverse
          else b64DecodeGo rest quadPos leftchar (pads + 1) acc
        else b64DecodeGo rest quadPos leftchar pads acc
      else
        match b64DecVal c with
        | none => b64DecodeGo rest quadPos leftchar pads acc
        | some v =>
            match quadPos with
            | 0 => b64DecodeGo rest 1 v 0 acc
            | 1 => b64DecodeGo rest 2 (v % 16) 0 ((leftchar * 4 + v / 16) :: acc)
            | 2 => b64DecodeGo rest 3 (v % 4) 0 ((leftchar * 16 + v / 4) :: acc)
            | _ => b64DecodeGo rest 0 0 0 ((leftchar * 64 + v) :: acc)

/-- `base64.b64decode(s.encode("ascii"))`: the `encode("ascii")` step
fails on any non-ASCII character; then the lenient decoder runs.  `none`
models an exception (caught by `_verify_password`). -/
def pyB64Decode (s : String) : Option (List Nat) :=
  if s.data.all (fun c => c.toNat ≤ 127) then
    b64DecodeGo (s.data.map Char.toNat) 0 0 0 []
  else none

/-- Whitespace stripped by Python's `int(str)` (ASCII fragment). -/
def pyStrip (c : Char) : Bool :=
  c == ' ' || c == '\t' || c == '\n' || c == '\x0d' || c == '\x0b' || c == '\x0c'

/-- Digit run with single underscores allowed between digits
(`digit (digit | _ digit)*`, continued after a first digit). -/
def parseDigitsUnd : List Char → Nat → Option Nat
  | [], acc => some acc
  | '_' :: c :: rest, acc =>
      if isDigitChar c then parseDigitsUnd rest (acc * 10 + digitVal c) else none
  | ['_'], _ => none
  | c :: rest, acc =>
      if isDigitChar c then parseDigitsUnd rest (acc * 10 + digitVal c) else none

/-- Python `int(str)` on ASCII text: optional surrounding whitespace, an
optional sign, then decimal digits with single underscores between
digits.  `none` models `ValueError`. -/
def pyInt (s : String) : Option Int :=
  let l := ((s.data.dropWhile pyStrip).reverse.dropWhile pyStrip).reverse
  match l with
  | '+' :: c :: rest =>
      if isDigitChar c then (parseDigitsUnd rest (digitVal c)).map (fun n => (n : Int)) else none
  | '-' :: c :: rest =>
      if isDigitChar c then (parseDigitsUnd rest (digitVal c)).map (fun n => -(n : Int)) else none
  | c :: rest =>
      if isDigitChar c then (parseDigitsUnd rest (digitVal c)).map (fun n => (n : Int)) else none
  | [] => none

/-- Split off everything before the first `$` (`str.split("$", ...)`,
one step).  Returns the prefix and, when a `$` was found, the remainder
after it. -/
def breakDollar : List Char → List Char × Option (List Char)
  | [] => ([], none)
  | c :: rest =>
      if c == '$' then ([], some rest)
      else
        let p := breakDollar rest
        (c :: p.1, p.2)

/-- Decimal digits of `n` (fuel-driven so that it reduces; `fuel > n`
suffices). -/
def natDecGo : Nat → Nat → List Char → List Char
  | 0, _, acc => acc
  | fuel + 1, n, acc =>
      if n < 10 then Char.ofNat (48 + n) :: acc
      else natDecGo fuel (n / 10) (Char.ofNat (48 + n % 10) :: acc)

/-- `"%d" % n` for a natural number. -/
def natDec (n : Nat) : String := ⟨natDecGo (n + 1) n []⟩

/-- ASCII string from a list of character codes
(`bytes.decode("ascii")`). -/
def asciiStr (l : List Nat) : String := ⟨l.map Char.ofNat⟩

/-- `_hash_password`: `pbkdf2_sha256$iterations$salt_b64$dk_b64`.  The
random 16-byte salt of `os.urandom(16)` is passed explicitly; the
`iterations` default is 200000. -/
def _hash_password (password : String) (salt : List Nat) (iterations : Nat) : String :=
  "pbkdf2_sha256$" ++ natDec iterations ++ "$" ++ asciiStr (b64EncodeBytes salt) ++ "$" ++
    asciiStr (b64EncodeBytes (pbkdf2HmacSha256 (utf8Encode password) salt iterations))

/-- `_verify_password`: split on the first three `$`, check the
algorithm tag, parse the iteration count, base64-decode salt and expected
key, recompute PBKDF2 and compare (`hmac.compare_digest` is equality of
byte strings).  Every failure path (`ValueError` from unpacking or
`int`, `binascii.Error`, `UnicodeEncodeError`, bad iteration count) is
caught by the `except Exception` and yields `false`. -/
def _verify_password (password stored : String) : Bool :=
  match breakDollar stored.data with
  | (_, none) => false
  | (algo, some r1) =>
      match breakDollar r1 with
      | (_, none) => false
      | (itersS, some r2) =>
          match breakDollar r2 with
          | (_, none) => false
          | (saltB64, some dkB64) =>
              if (⟨algo⟩ : String) == "pbkdf2_sha256" then
                match pyInt ⟨itersS⟩ with
                | none => false
                | some iters =>
                    match pyB64Decode ⟨saltB64⟩ with
                    | none => false
                    | some salt =>
                        match pyB64Decode ⟨dkB64⟩ with
                        | none => false
                        | some expected =>
                            if iters < 1 then false
                            else
                              pbkdf2HmacSha256 (utf8Encode password) salt iters.toNat == expected
              else false

/-! ### Spec-side definitions and invariant predicates -/

/-- Modelled from the spec: "timestamp (UTC, second precision, ISO-8601
with `Z` suffix)" — a string of the exact shape `YYYY-MM-DDTHH:MM:SSZ`
denoting a valid civil UTC date-time, as Unix seconds.  This is the
spec's reading of a stored `closed_at`, to be compared against the code's
`datetime(replace(...))` path. -/
def specParseZ (s : String) : Option Int :=
  match s.data with
  | [y1, y2, y3, y4, '-', m1, m2, '-', d1, d2, 'T',
     h1, h2, ':', n1, n2, ':', p1, p2, 'Z'] =>
      if isDigitChar y1 && isDigitChar y2 && isDigitChar y3 && isDigitChar y4 &&
         isDigitChar m1 && isDigitChar m2 && isDigitChar d1 && isDigitChar d2 &&
         isDigitChar h1 && isDigitChar h2 && isDigitChar n1 && isDigitChar n2 &&
         isDigitChar p1 && isDigitChar p2 then
        let y := digitVal y1 * 1000 + digitVal y2 * 100 + digitVal y3 * 10 + digitVal y4
        let mo := digitVal m1 * 10 + digitVal m2
        let d := digitVal d1 * 10 + digitVal d2
        let h := digitVal h1 * 10 + digitVal h2
        let mi := digitVal n1 * 10 + digitVal n2
        let sec := digitVal p1 * 10 + digitVal p2
        if 1 ≤ mo && mo ≤ 12 && 1 ≤ d && (d : Int) ≤ daysInMonth y mo &&
           h ≤ 23 && mi ≤ 59 && sec ≤ 59 then
          some (civilToEpoch y mo d h mi sec)
        else none
      else none
  | _ => none

/-- One row's `closed_at` is absent or a well-formed `Z`-suffixed UTC
timestamp. -/
def zClosedWFb (r : WorkOrderRow) : Bool :=
  match r.closed_at with
  | none => true
  | some c => (specParseZ c).isSome

/-- Every stored `closed_at` is a well-formed `Z`-suffixed UTC timestamp
(true of every store reachable through the API, whose `closed_at` values
all come from `utc_now_iso`). -/
def ZClosedWF (db : WorkOrdersDB) : Prop := ∀ r ∈ db.rows, zClosedWFb r = true

/-- The per-row condition of C6's claim: a closed row whose `closed_at`
reads (per the spec) as a `Z`-suffixed UTC timestamp strictly older than
the cutoff `now − days·86400`. -/
def specOldClosed (now : Int) (days : Nat) (r : WorkOrderRow) : Prop :=
  r.status = "closed" ∧
    ∃ c t, r.closed_at = some c ∧ specParseZ c = some t ∧ t < now - (days : Int) * 86400

/-- Boolean form of `specOldClosed`. -/
def specOldClosedB (now : Int) (days : Nat) (r : WorkOrderRow) : Bool :=
  r.status == "closed" &&
    (match r.closed_at with
     | none => false
     | some c =>
         match specParseZ c with
         | none => false
         | some t => decide (t < now - (days : Int) * 86400))

/-- Ids are pairwise distinct (the `id INTEGER PRIMARY KEY` of the
schema). -/
def NodupIds (db : WorkOrdersDB) : Prop := (db.rows.map WorkOrderRow.id).Nodup

/-- Every stored row satisfies the schema's CHECK constraints (SQLite
guarantees this for any store it built). -/
def ValidDB (db : WorkOrdersDB) : Prop := ∀ r ∈ db.rows, checkRow r = true

/-- The C2 invariant, per row: `closed_at` present iff the status is
`closed`, and absent iff it is `open`. -/
def rowStatusInv (r : WorkOrderRow) : Prop :=
  (r.closed_at ≠ none ↔ r.status = "closed") ∧ (r.closed_at = none ↔ r.status = "open")

def statusClosedAtInv (db : WorkOrdersDB) : Prop := ∀ r ∈ db.rows, rowStatusInv r

/-- One mutating store operation with its call arguments (`now` is the
`utc_now_iso()` string the call would observe). -/
inductive StoreOp where
  | create (machine_id issue priority : String) (assigned_to notes : Option String) (now : String)
  | update (work_order_id : Nat) (issue priority assigned_to notes : Option String) (now : String)
  | close (work_order_id : Nat) (now : String)

/-- Run one operation against the store; a constraint error leaves the
store unchanged (the statement aborted). -/
def applyOp (db : WorkOrdersDB) : StoreOp → WorkOrdersDB
  | .create mi iss pr a n now =>
      (match add_work_order db mi iss pr a n now with
       | .ok x => x.2
       | .error _ => db)
  | .update wid i p a n now =>
      (match update_work_order db wid i p a n now with
       | .ok x => x.2
       | .error _ => db)
  | .close wid now =>
      (match close_work_order db wid now with
       | .ok x => x.2
       | .error _ => db)

def applyOps (db : WorkOrdersDB) (ops : List StoreOp) : WorkOrdersDB :=
  ops.foldl applyOp db

/-- The rows a caller sees after an operation: the new store on success,
the unchanged one after an aborted statement. -/
def updatedRows (db : WorkOrdersDB) (e : Except DBError (Nat × WorkOrdersDB)) :
    List WorkOrderRow :=
  match e with
  | .ok x => x.2.rows
  | .error _ => db.rows

/-- Modelled from the spec: a strict RFC-4648 base64 character. -/
def strictB64Char (c : Char) : Bool := (b64DecVal c.toNat).isSome

/-- Modelled from the spec: strict base64 text — length a multiple of
four, data characters from the alphabet, `=` only as final padding. -/
def strictB64 (l : List Char) : Bool :=
  l.length % 4 == 0 &&
    (match l.reverse with
     | '=' :: '=' :: rest => rest.all strictB64Char
     | '=' :: rest => rest.all strictB64Char
     | rest => rest.all strictB64Char)

def splitAllDollar : List Char → List (List Char)
  | [] => [[]]
  | c :: rest =>
      let p := splitAllDollar rest
      if c == '$' then [] :: p else (c :: p.headD []) :: p.tail

/-- Modelled from the spec: a well-formed encoded hash
`algorithm$iterations$salt(base64)$derivedKey(base64)` — exactly four
`$`-separated fields, the `pbkdf2_sha256` tag, a nonempty decimal
iteration count, and strictly valid base64 salt and key.  C8's "malformed
encoded hash string" (wrong field count, unknown algorithm tag,
non-integer iteration count, or invalid base64) is the negation. -/
def wellFormedEncoding (s : String) : Bool :=
  match splitAllDollar s.data with
  | [algo, its, sa, dk] =>
      algo == "pbkdf2_sha256".data && !its.isEmpty && its.all isDigitChar &&
        strictB64 sa && strictB64 dk
  | _ => false

/-- The malformation cases on which `_verify_password` structurally
returns `false`: fewer than four `$`-separated fields, a wrong algorithm
tag, an iteration field `int(...)` rejects or parses below 1, or a salt
or key field the (lenient) base64 decode raises on. -/
def structurallyMalformed (s : String) : Bool :=
  match breakDollar s.data with
  | (_, none) => true
  | (algo, some r1) =>
      match breakDollar r1 with
      | (_, none) => true
      | (itersS, some r2) =>
          match breakDollar r2 with
          | (_, none) => true
          | (saltB64, some dkB64) =>
              !((⟨algo⟩ : String) == "pbkdf2_sha256") ||
                (match pyInt ⟨itersS⟩ with
                 | none => true
                 | some iters => decide (iters < 1)) ||
                (pyB64Decode ⟨saltB64⟩).isNone || (pyB64Decode ⟨dkB64⟩).isNone

/-- A one-row store with a single open work order, used to instantiate
the theorems on concrete inputs. -/
def sampleOpen : WorkOrderRow :=
  ⟨1, "KMT-102", "Hydraulic leak", "med", "open", "2026-02-09T01:21:59Z",
    none, none, none, some "2026-02-09T01:21:59Z"⟩

def sampleDB : WorkOrdersDB := ⟨[sampleOpen], 1⟩

/-- Base-256 value of a byte list (proof infrastructure for the
pigeonhole argument). -/
def bytesToNat : List Nat → Nat
  | [] => 0
  | b :: rest => b * 256 ^ rest.length + bytesToNat rest

/-- The plaintext `a^n` (proof infrastructure: an infinite family of
distinct plaintexts). -/
def strRep (n : Nat) : String := ⟨List.replicate n 'a'⟩

/-! ### Helper lemmas -/

theorem insertDesc_perm (r : WorkOrderRow) (l : List WorkOrderRow) :
    (insertDesc r l).Perm (r :: l) := by
  induction l with
  | nil => simp [insertDesc]
  | cons x xs ih =>
      simp only [insertDesc]
      split
      · exact List.Perm.refl _
      · exact (List.Perm.cons x ih).trans (List.Perm.swap r x xs)

theorem sortByIdDesc_perm (l : List WorkOrderRow) : (sortByIdDesc l).Perm l := by
  induction l with
  | nil => simp [sortByIdDesc]
  | cons x xs ih =>
      simpa [sortByIdDesc] using (insertDesc_perm x (sortByIdDesc xs)).trans (ih.cons x)

theorem sqlUpdate_ok (db : WorkOrdersDB) (φ : WorkOrderRow → Bool)
    (f : WorkOrderRow → WorkOrderRow)
    (hc : db.rows.all (fun r => !φ r || checkRow (f r)) = true) :
    sqlUpdate db φ f =
      .ok (db.rows.countP φ, ⟨db.rows.map (fun r => if φ r then f r else r), db.seq⟩) := by
  simp [sqlUpdate, hc]

theorem sqlUpdate_err (db : WorkOrdersDB) (φ : WorkOrderRow → Bool)
    (f : WorkOrderRow → WorkOrderRow)
    (hc : ¬ db.rows.all (fun r => !φ r || checkRow (f r)) = true) :
    sqlUpdate db φ f = .error .constraintViolation := by
  simp only [sqlUpdate]
  rw [if_neg hc]

/-- `statusClosedAtInv` is preserved by every single store operation. -/
theorem statusClosedAtInv_applyOp (db : WorkOrdersDB) (op : StoreOp)
    (h : statusClosedAtInv db) : statusClosedAtInv (applyOp db op) := by
  cases op with
  | create mi iss pr a n now =>
      by_cases hc : checkRow (newRow (db.seq + 1) mi iss pr a n now) = true
      · have hred : applyOp db (.create mi iss pr a n now) =
            ⟨db.rows ++ [newRow (db.seq + 1) mi iss pr a n now], db.seq + 1⟩ := by
          simp [applyOp, add_work_order, insertRow, hc]
        rw [hred]
        intro r hr
        rcases List.mem_append.mp hr with h1 | h1
        · exact h r h1
        · simp only [List.mem_singleton] at h1
          subst h1
          exact ⟨by simp [rowStatusInv, newRow], by simp [rowStatusInv, newRow]⟩
      · have hred : applyOp db (.create mi iss pr a n now) = db := by
          simp [applyOp, add_work_order, insertRow, hc]
        rw [hred]; exact h
  | update wid i p a n now =>
      by_cases h0 : (i.isNone && p.isNone && a.isNone && n.isNone) = true
      · have hred : applyOp db (.update wid i p a n now) = db := by
          simp [applyOp, update_work_order, h0]
        rw [hred]; exact h
      · by_cases hc : db.rows.all
            (fun r => !(r.id == wid) || checkRow (updateRowF i p a n now r)) = true
        · have hred : applyOp db (.update wid i p a n now) =
              ⟨db.rows.map (fun r => if r.id == wid then updateRowF i p a n now r else r),
                db.seq⟩ := by
            simp [applyOp, update_work_order, h0, sqlUpdate_ok _ _ _ hc]
          rw [hred]
          intro r hr
          simp only [List.mem_map] at hr
          obtain ⟨r0, hr0, hr0e⟩ := hr
          have hinv := h r0 hr0
          subst hr0e
          by_cases hm : (r0.id == wid) = true
          · rw [if_pos hm]
            exact ⟨by simpa [rowStatusInv, updateRowF] using hinv.1,
              by simpa [rowStatusInv, updateRowF] using hinv.2⟩
          · rw [if_neg hm]; exact hinv
        · have hred : applyOp db (.update wid i p a n now) = db := by
            simp [applyOp, update_work_order, h0, sqlUpdate_err _ _ _ hc]
          rw [hred]; exact h
  | close wid now =>
      by_cases hc : db.rows.all
          (fun r => !(r.id == wid && r.status == "open") || checkRow (closeRowF now r)) = true
      · have hred : applyOp db (.close wid now) =
            ⟨db.rows.map (fun r =>
              if r.id == wid && r.status == "open" then closeRowF now r else r), db.seq⟩ := by
          simp [applyOp, close_work_order, sqlUpdate_ok _ _ _ hc]
        rw [hred]
        intro r hr
        simp only [List.mem_map] at hr
        obtain ⟨r0, hr0, hr0e⟩ := hr
        subst hr0e
        by_cases hm : (r0.id == wid && r0.status == "open") = true
        · rw [if_pos hm]
          exact ⟨by simp [rowStatusInv, closeRowF], by simp [rowStatusInv, closeRowF]⟩
        · rw [if_neg hm]; exact h r0 hr0
      · have hred : applyOp db (.close wid now) = db := by
          simp [applyOp, close_work_order, sqlUpdate_err _ _ _ hc]
        rw [hred]; exact h

theorem statusClosedAtInv_applyOps (db : WorkOrdersDB) (ops : List StoreOp)
    (h : statusClosedAtInv db) : statusClosedAtInv (applyOps db ops) := by
  induction ops generalizing db with
  | nil => exact h
  | cons op rest ih => exact ih (applyOp db op) (statusClosedAtInv_applyOp db op h)

theorem validDB_all_check (db : WorkOrdersDB) (φ : WorkOrderRow → Bool)
    (f : WorkOrderRow → WorkOrderRow) (hv : ValidDB db)
    (hf : ∀ r, checkRow r = true → checkRow (f r) = true) :
    db.rows.all (fun r => !φ r || checkRow (f r)) = true :=
  List.all_eq_true.mpr (fun r hr => by simp [hf r (hv r hr)])

theorem checkRow_closeRowF (now : String) (r : WorkOrderRow)
    (h : checkRow r = true) : checkRow (closeRowF now r) = true := by
  simp only [checkRow, closeRowF, Bool.and_eq_true] at h ⊢
  exact ⟨h.1, by simp [validStatus]⟩

/-- An UPDATE whose WHERE clause matches no row returns rowcount 0 and
leaves the store unchanged. -/
theorem sqlUpdate_noMatch (db : WorkOrdersDB) (φ : WorkOrderRow → Bool)
    (f : WorkOrderRow → WorkOrderRow) (h : ∀ r ∈ db.rows, φ r = false) :
    sqlUpdate db φ f = .ok (0, db) := by
  have hall : db.rows.all (fun r => !φ r || checkRow (f r)) = true :=
    List.all_eq_true.mpr (fun r hr => by simp [h r hr])
  rw [sqlUpdate_ok db φ f hall]
  have h0 : db.rows.countP φ = 0 := List.countP_eq_zero.mpr (by intro a ha; simp [h a ha])
  have hm : db.rows.map (fun r => if φ r then f r else r) = db.rows := by
    rw [List.map_congr_left (g := id) (fun r hr => by simp [h r hr]), List.map_id]
  rw [h0, hm]

/-- A predicate that holds for the single row carrying its id (ids are
nodup) is counted exactly once. -/
theorem countP_eq_one_unique (l : List WorkOrderRow) (φ : WorkOrderRow → Bool)
    (hn : (l.map WorkOrderRow.id).Nodup) (r : WorkOrderRow) (hr : r ∈ l)
    (hφ : φ r = true) (hid : ∀ x ∈ l, φ x = true → x.id = r.id) :
    l.countP φ = 1 := by
  induction l with
  | nil => cases hr
  | cons x xs ih =>
      simp only [List.map_cons, List.nodup_cons] at hn
      rcases List.mem_cons.mp hr with he | hm
      · subst he
        have h0 : xs.countP φ = 0 := by
          refine List.countP_eq_zero.mpr (fun y hy => ?_)
          by_contra hc
          exact hn.1 (hid y (List.mem_cons_of_mem _ hy) hc ▸ List.mem_map_of_mem _ hy)
        rw [List.countP_cons, h0, hφ]
        simp
      · have hx : φ x = false := by
          by_contra hc
          rw [Bool.not_eq_false] at hc
          have := hid x (List.mem_cons_self x xs) hc
          exact hn.1 (this ▸ List.mem_map_of_mem _ hm)
        rw [List.countP_cons, hx]
        simpa using ih hn.2 hm (fun y hy hφy => hid y (List.mem_cons_of_mem x hy) hφy)

/-! ### Claims -/

/-- C1: `close_work_order` transitions open→closed only.  With valid rows
and unique ids: closing an id no row carries returns rowcount 0 and
leaves the store unchanged; closing an already-closed id returns 0 and
leaves the store (hence its `closed_at`) unchanged; the first close of an
open row returns 1 and rewrites exactly that row, setting its `closed_at`
and `updated_at` to the same current `Z`-suffixed UTC timestamp
`utc_now_iso t`, while every other row is mapped to itself; a second
close of the same id (at any later instant `t2`) returns 0 and changes
nothing. -/
theorem C1_close_semantics (db : WorkOrdersDB) (wid : Nat) (t t2 : Int)
    (hv : ValidDB db) (hn : NodupIds db) :
    ((∀ r ∈ db.rows, r.id ≠ wid) →
      close_work_order db wid (utc_now_iso t) = .ok (0, db)) ∧
    (∀ r ∈ db.rows, r.id = wid → r.status = "closed" →
      close_work_order db wid (utc_now_iso t) = .ok (0, db)) ∧
    (∀ r ∈ db.rows, r.id = wid → r.status = "open" →
      close_work_order db wid (utc_now_iso t) =
        .ok (1, ⟨db.rows.map (fun r0 => if r0.id == wid
          then closeRowF (utc_now_iso t) r0 else r0), db.seq⟩) ∧
      (closeRowF (utc_now_iso t) r).status = "closed" ∧
      (closeRowF (utc_now_iso t) r).closed_at = some (utc_now_iso t) ∧
      (closeRowF (utc_now_iso t) r).updated_at = some (utc_now_iso t) ∧
      close_work_order ⟨db.rows.map (fun r0 => if r0.id == wid
          then closeRowF (utc_now_iso t) r0 else r0), db.seq⟩ wid (utc_now_iso t2) =
        .ok (0, ⟨db.rows.map (fun r0 => if r0.id == wid
          then closeRowF (utc_now_iso t) r0 else r0), db.seq⟩)) := by
  refine ⟨?_, ?_, ?_⟩
  · intro hab
    rw [close_work_order]
    apply sqlUpdate_noMatch
    intro x hx
    have hb : (x.id == wid) = false := beq_eq_false_iff_ne.mpr (hab x hx)
    simp [hb]
  · intro r hr hrid hrst
    rw [close_work_order]
    apply sqlUpdate_noMatch
    intro x hx
    by_cases hb : (x.id == wid) = true
    · have hx_eq : x = r :=
        List.inj_on_of_nodup_map hn hx hr (by rw [beq_iff_eq] at hb; rw [hb, hrid])
      have hcl : (x.status == "open") = false := by rw [hx_eq, hrst]; decide
      simp [hcl]
    · have hb' : (x.id == wid) = false := by simpa using hb
      simp [hb']
  · intro r hr hrid hrst
    have hall := validDB_all_check db
      (fun r0 => r0.id == wid && r0.status == "open") (closeRowF (utc_now_iso t)) hv
      (checkRow_closeRowF (utc_now_iso t))
    have hcount : db.rows.countP (fun r0 => r0.id == wid && r0.status == "open") = 1 := by
      apply countP_eq_one_unique db.rows _ hn r hr
      · simp [hrid, hrst]
      · intro x hx hφx
        simp only [Bool.and_eq_true, beq_iff_eq] at hφx
        rw [hφx.1, hrid]
    have hmap : db.rows.map (fun r0 => if r0.id == wid && r0.status == "open"
          then closeRowF (utc_now_iso t) r0 else r0) =
        db.rows.map (fun r0 => if r0.id == wid then closeRowF (utc_now_iso t) r0 else r0) := by
      refine List.map_congr_left (fun x hx => ?_)
      by_cases hb : (x.id == wid) = true
      · have hx_eq : x = r :=
          List.inj_on_of_nodup_map hn hx hr (by rw [beq_iff_eq] at hb; rw [hb, hrid])
        have hop : (x.status == "open") = true := by rw [hx_eq]; simp [hrst]
        rw [if_pos (by rw [hb, hop]; rfl), if_pos hb]
      · have hb' : (x.id == wid) = false := by simpa using hb
        rw [if_neg (by rw [hb']; simp), if_neg (by rw [hb']; simp)]
    refine ⟨by rw [close_work_order, sqlUpdate_ok _ _ _ hall, hcount, hmap], rfl, rfl, rfl, ?_⟩
    rw [close_work_order]
    apply sqlUpdate_noMatch
    intro y hy
    simp only [List.mem_map] at hy
    obtain ⟨x, hx, rfl⟩ := hy
    by_cases hb : (x.id == wid) = true
    · rw [if_pos hb]
      simp [closeRowF]
    · have hb' : (x.id == wid) = false := by simpa using hb
      rw [if_neg (by rw [hb']; simp)]
      simp [hb']

theorem C1_close_semantics_witness :
    ValidDB sampleDB ∧ NodupIds sampleDB ∧
    (((∀ r ∈ sampleDB.rows, r.id ≠ 1) →
      close_work_order sampleDB 1 (utc_now_iso 1770600119) = .ok (0, sampleDB)) ∧
    (∀ r ∈ sampleDB.rows, r.id = 1 → r.status = "closed" →
      close_work_order sampleDB 1 (utc_now_iso 1770600119) = .ok (0, sampleDB)) ∧
    (∀ r ∈ sampleDB.rows, r.id = 1 → r.status = "open" →
      close_work_order sampleDB 1 (utc_now_iso 1770600119) =
        .ok (1, ⟨sampleDB.rows.map (fun r0 => if r0.id == 1
          then closeRowF (utc_now_iso 1770600119) r0 else r0), sampleDB.seq⟩) ∧
      (closeRowF (utc_now_iso 1770600119) r).status = "closed" ∧
      (closeRowF (utc_now_iso 1770600119) r).closed_at = some (utc_now_iso 1770600119) ∧
      (closeRowF (utc_now_iso 1770600119) r).updated_at = some (utc_now_iso 1770600119) ∧
      close_work_order ⟨sampleDB.rows.map (fun r0 => if r0.id == 1
          then closeRowF (utc_now_iso 1770600119) r0 else r0), sampleDB.seq⟩ 1
          (utc_now_iso 1770600200) =
        .ok (0, ⟨sampleDB.rows.map (fun r0 => if r0.id == 1
          then closeRowF (utc_now_iso 1770600119) r0 else r0), sampleDB.seq⟩))) :=
  ⟨by unfold ValidDB; decide, by unfold NodupIds; decide,
    C1_close_semantics sampleDB 1 1770600119 1770600200 (by unfold ValidDB; decide)
      (by unfold NodupIds; decide)⟩

/-- C4: `update_work_order` changes only the supplied fields.  With no
field supplied it returns 0 and leaves the store (hence `updated_at`)
unchanged; on an id no row carries it returns 0 and changes nothing; with
at least one field supplied on an existing row (and a valid priority when
one is supplied) it returns 1 and rewrites exactly that row: each
supplied field is overwritten, each unsupplied field keeps its prior
value, `machine_id`, `status`, `closed_at`, `created_at` and the id are
untouched, and `updated_at` is set to `now` — with no comparison against
the prior values whatsoever. -/
theorem C4_update_semantics (db : WorkOrdersDB) (wid : Nat)
    (iss pri asg nts : Option String) (now : String)
    (hv : ValidDB db) (hn : NodupIds db)
    (hpri : pri = none ∨ ∃ p, pri = some p ∧ validPriority p = true) :
    (update_work_order db wid none none none none now = .ok (0, db)) ∧
    ((∀ r ∈ db.rows, r.id ≠ wid) →
      update_work_order db wid iss pri asg nts now = .ok (0, db)) ∧
    (∀ r ∈ db.rows, r.id = wid →
      ¬(iss = none ∧ pri = none ∧ asg = none ∧ nts = none) →
      update_work_order db wid iss pri asg nts now =
        .ok (1, ⟨db.rows.map (fun r0 => if r0.id == wid
          then updateRowF iss pri asg nts now r0 else r0), db.seq⟩) ∧
      (updateRowF iss pri asg nts now r).updated_at = some now ∧
      (∀ v, iss = some v → (updateRowF iss pri asg nts now r).issue = v) ∧
      (iss = none → (updateRowF iss pri asg nts now r).issue = r.issue) ∧
      (∀ v, pri = some v → (updateRowF iss pri asg nts now r).priority = v) ∧
      (pri = none → (updateRowF iss pri asg nts now r).priority = r.priority) ∧
      (∀ v, asg = some v → (updateRowF iss pri asg nts now r).assigned_to = some v) ∧
      (asg = none → (updateRowF iss pri asg nts now r).assigned_to = r.assigned_to) ∧
      (∀ v, nts = some v → (updateRowF iss pri asg nts now r).notes = some v) ∧
      (nts = none → (updateRowF iss pri asg nts now r).notes = r.notes) ∧
      (updateRowF iss pri asg nts now r).id = r.id ∧
      (updateRowF iss pri asg nts now r).machine_id = r.machine_id ∧
      (updateRowF iss pri asg nts now r).status = r.status ∧
      (updateRowF iss pri asg nts now r).closed_at = r.closed_at ∧
      (updateRowF iss pri asg nts now r).created_at = r.created_at) := by
  refine ⟨rfl, ?_, ?_⟩
  · intro hab
    by_cases h0 : (iss.isNone && pri.isNone && asg.isNone && nts.isNone) = true
    · simp only [Bool.and_eq_true, Option.isNone_iff_eq_none] at h0
      obtain ⟨⟨⟨hi, hp⟩, ha⟩, hnn⟩ := h0
      subst hi; subst hp; subst ha; subst hnn
      rfl
    · rw [update_work_order, if_neg (by simpa using h0)]
      apply sqlUpdate_noMatch
      intro x hx
      exact beq_eq_false_iff_ne.mpr (hab x hx)
  · intro r hr hrid hsome
    have h0 : ¬ ((iss.isNone && pri.isNone && asg.isNone && nts.isNone) = true) := by
      simp only [Bool.and_eq_true, Option.isNone_iff_eq_none]
      intro hc
      exact hsome ⟨hc.1.1.1, hc.1.1.2, hc.1.2, hc.2⟩
    have hf : ∀ x, checkRow x = true →
        checkRow (updateRowF iss pri asg nts now x) = true := by
      intro x hx
      simp only [checkRow, Bool.and_eq_true] at hx ⊢
      refine ⟨?_, hx.2⟩
      rcases hpri with hno | ⟨p, hp, hpv⟩
      · subst hno; exact hx.1
      · subst hp; exact hpv
    have hall := validDB_all_check db (fun r0 => r0.id == wid)
      (updateRowF iss pri asg nts now) hv hf
    have hcount : db.rows.countP (fun r0 => r0.id == wid) = 1 := by
      apply countP_eq_one_unique db.rows _ hn r hr
      · simp [hrid]
      · intro x hx hφx
        simp only [beq_iff_eq] at hφx
        rw [hφx, hrid]
    refine ⟨by rw [update_work_order, if_neg (by simpa using h0),
        sqlUpdate_ok _ _ _ hall, hcount], rfl, ?_, ?_, ?_, ?_, ?_, ?_, ?_, ?_,
      rfl, rfl, rfl, rfl, rfl⟩
    · intro v hval; rw [hval]; rfl
    · intro hval; rw [hval]; rfl
    · intro v hval; rw [hval]; rfl
    · intro hval; rw [hval]; rfl
    · intro v hval; rw [hval]; rfl
    · intro hval; rw [hval]; rfl
    · intro v hval; rw [hval]; rfl
    · intro hval; rw [hval]; rfl

theorem C4_update_semantics_witness :
    (ValidDB sampleDB ∧ NodupIds sampleDB ∧
      ((none : Option String) = none ∨
        ∃ p, (none : Option String) = some p ∧ validPriority p = true)) ∧
    ((update_work_order sampleDB 1 none none none none "2026-03-01T00:00:00Z" =
        .ok (0, sampleDB)) ∧
    ((∀ r ∈ sampleDB.rows, r.id ≠ 1) →
      update_work_order sampleDB 1 (some "Hydraulic leak") none (some "dana") none
        "2026-03-01T00:00:00Z" = .ok (0, sampleDB)) ∧
    (∀ r ∈ sampleDB.rows, r.id = 1 →
      ¬((some "Hydraulic leak" : Option String) = none ∧ (none : Option String) = none ∧
        (some "dana" : Option String) = none ∧ (none : Option String) = none) →
      update_work_order sampleDB 1 (some "Hydraulic leak") none (some "dana") none
        "2026-03-01T00:00:00Z" =
        .ok (1, ⟨sampleDB.rows.map (fun r0 => if r0.id == 1
          then updateRowF (some "Hydraulic leak") none (some "dana") none
            "2026-03-01T00:00:00Z" r0 else r0), sampleDB.seq⟩) ∧
      (updateRowF (some "Hydraulic leak") none (some "dana") none
        "2026-03-01T00:00:00Z" r).updated_at = some "2026-03-01T00:00:00Z" ∧
      (∀ v, (some "Hydraulic leak" : Option String) = some v →
        (updateRowF (some "Hydraulic leak") none (some "dana") none
          "2026-03-01T00:00:00Z" r).issue = v) ∧
      ((some "Hydraulic leak" : Option String) = none →
        (updateRowF (some "Hydraulic leak") none (some "dana") none
          "2026-03-01T00:00:00Z" r).issue = r.issue) ∧
      (∀ v, (none : Option String) = some v →
        (updateRowF (some "Hydraulic leak") none (some "dana") none
          "2026-03-01T00:00:00Z" r).priority = v) ∧
      ((none : Option String) = none →
        (updateRowF (some "Hydraulic leak") none (some "dana") none
          "2026-03-01T00:00:00Z" r).priority = r.priority) ∧
      (∀ v, (some "dana" : Option String) = some v →
        (updateRowF (some "Hydraulic leak") none (some "dana") none
          "2026-03-01T00:00:00Z" r).assigned_to = some v) ∧
      ((some "dana" : Option String) = none →
        (updateRowF (some "Hydraulic leak") none (some "dana") none
          "2026-03-01T00:00:00Z" r).assigned_to = r.assigned_to) ∧
      (∀ v, (none : Option String) = some v →
        (updateRowF (some "Hydraulic leak") none (some "dana") none
          "2026-03-01T00:00:00Z" r).notes = some v) ∧
      ((none : Option String) = none →
        (updateRowF (some "Hydraulic leak") none (some "dana") none
          "2026-03-01T00:00:00Z" r).notes = r.notes) ∧
      (updateRowF (some "Hydraulic leak") none (some "dana") none
        "2026-03-01T00:00:00Z" r).id = r.id ∧
      (updateRowF (some "Hydraulic leak") none (some "dana") none
        "2026-03-01T00:00:00Z" r).machine_id = r.machine_id ∧
      (updateRowF (some "Hydraulic leak") none (some "dana") none
        "2026-03-01T00:00:00Z" r).status = r.status ∧
      (updateRowF (some "Hydraulic leak") none (some "dana") none
        "2026-03-01T00:00:00Z" r).closed_at = r.closed_at ∧
      (updateRowF (some "Hydraulic leak") none (some "dana") none
        "2026-03-01T00:00:00Z" r).created_at = r.created_at)) :=
  ⟨⟨by unfold ValidDB; decide, by unfold NodupIds; decide, Or.inl rfl⟩,
    C4_update_semantics sampleDB 1 (some "Hydraulic leak") none (some "dana") none
      "2026-03-01T00:00:00Z" (by unfold ValidDB; decide) (by unfold NodupIds; decide)
      (Or.inl rfl)⟩

/-- C9: passing the empty string as the status argument behaves exactly
like passing no status filter at all, for both `list_work_orders` and
`list_work_orders_by_machine` (the filter only applies to a truthy
status), and the unfiltered result lists all rows (of the machine,
respectively), ordered by id descending. -/
theorem C9_empty_status_is_no_filter (db : WorkOrdersDB) (m : String) :
    list_work_orders db (some "") = list_work_orders db none ∧
    list_work_orders_by_machine db m (some "") = list_work_orders_by_machine db m none ∧
    (list_work_orders db (some "")).Perm db.rows ∧
    (list_work_orders_by_machine db m (some "")).Perm
      (db.rows.filter (fun r => r.machine_id == m)) := by
  refine ⟨rfl, rfl, ?_, ?_⟩
  · simpa [list_work_orders, pyTruthy] using sortByIdDesc_perm db.rows
  · simpa [list_work_orders_by_machine, pyTruthy] using
      sortByIdDesc_perm (db.rows.filter (fun r => r.machine_id == m))

/-- C3: creating a work order with a priority outside
`{low, med, high}` fails with a constraint violation raised by the
storage-level CHECK constraint (`insertRow` applies the schema checks;
`add_work_order` itself validates nothing), and the store is unchanged by
the failed call. -/
theorem C3_bad_priority_fails (db : WorkOrdersDB)
    (machine_id issue priority : String) (assigned_to notes : Option String) (now : String)
    (h1 : priority ≠ "low") (h2 : priority ≠ "med") (h3 : priority ≠ "high") :
    add_work_order db machine_id issue priority assigned_to notes now =
      .error .constraintViolation ∧
    applyOp db (.create machine_id issue priority assigned_to notes now) = db := by
  have hv : validPriority priority = false := by
    simp [validPriority, h1, h2, h3]
  constructor
  · simp [add_work_order, insertRow, checkRow, newRow, hv]
  · simp [applyOp, add_work_order, insertRow, checkRow, newRow, hv]

theorem C3_bad_priority_fails_witness :
    ("urgent" ≠ "low" ∧ "urgent" ≠ "med" ∧ "urgent" ≠ "high") ∧
    (add_work_order emptyDB "KMT-102" "Hydraulic leak" "urgent" none none
        "2026-02-09T01:21:59Z" = .error .constraintViolation ∧
      applyOp emptyDB (.create "KMT-102" "Hydraulic leak" "urgent" none none
        "2026-02-09T01:21:59Z") = emptyDB) :=
  ⟨⟨by decide, by decide, by decide⟩,
    C3_bad_priority_fails emptyDB "KMT-102" "Hydraulic leak" "urgent" none none
      "2026-02-09T01:21:59Z" (by decide) (by decide) (by decide)⟩

/-- C10: an update that does not supply `assigned_to` (passes `None`)
leaves every row's `assigned_to` unchanged, and likewise for `notes`:
`None` means "not supplied", so no update call can clear a present
value back to absent. -/
theorem C10_none_means_not_supplied (db : WorkOrdersDB) (wid : Nat)
    (iss pri nts asg : Option String) (now : String) :
    (updatedRows db (update_work_order db wid iss pri none nts now)).map
        (fun r => r.assigned_to) = db.rows.map (fun r => r.assigned_to) ∧
    (updatedRows db (update_work_order db wid iss pri asg none now)).map
        (fun r => r.notes) = db.rows.map (fun r => r.notes) := by
  constructor
  · by_cases h0 : (iss.isNone && pri.isNone && (none : Option String).isNone
        && nts.isNone) = true
    · simp only [Bool.and_eq_true, Option.isNone_iff_eq_none] at h0
      obtain ⟨⟨⟨hi, hp⟩, _⟩, hn⟩ := h0
      subst hi; subst hp; subst hn
      simp [update_work_order, updatedRows]
    · by_cases hc : db.rows.all
          (fun r => !(r.id == wid) || checkRow (updateRowF iss pri none nts now r)) = true
      · rw [update_work_order, if_neg h0, sqlUpdate_ok _ _ _ hc]
        simp only [updatedRows, List.map_map]
        refine List.map_congr_left (fun r _ => ?_)
        simp only [Function.comp_apply]
        split <;> rfl
      · rw [update_work_order, if_neg h0, sqlUpdate_err _ _ _ hc]
        rfl
  · by_cases h0 : (iss.isNone && pri.isNone && asg.isNone
        && (none : Option String).isNone) = true
    · simp only [Bool.and_eq_true, Option.isNone_iff_eq_none] at h0
      obtain ⟨⟨⟨hi, hp⟩, ha⟩, _⟩ := h0
      subst hi; subst hp; subst ha
      simp [update_work_order, updatedRows]
    · by_cases hc : db.rows.all
          (fun r => !(r.id == wid) || checkRow (updateRowF iss pri asg none now r)) = true
      · rw [update_work_order, if_neg h0, sqlUpdate_ok _ _ _ hc]
        simp only [updatedRows, List.map_map]
        refine List.map_congr_left (fun r _ => ?_)
        simp only [Function.comp_apply]
        split <;> rfl
      · rw [update_work_order, if_neg h0, sqlUpdate_err _ _ _ hc]
        rfl

/-- C2: after any sequence of create, update and close operations
starting from the empty store, every row satisfies the invariant:
`closed_at` is present iff `status = "closed"`, and absent iff
`status = "open"`.  Creation inserts `open` rows with no `closed_at`,
close sets both together, update touches neither. -/
theorem C2_closed_at_iff_closed (ops : List StoreOp) :
    statusClosedAtInv (applyOps emptyDB ops) :=
  statusClosedAtInv_applyOps emptyDB ops (by intro r hr; simp [emptyDB] at hr)


theorem digit_beq_false (c k : Char) (h : isDigitChar c = true)
    (hk : k.toNat < 48 ∨ 57 < k.toNat) : (c == k) = false := by
  simp only [isDigitChar, Bool.and_eq_true, decide_eq_true_eq] at h
  by_contra hc
  rw [Bool.not_eq_false, beq_iff_eq] at hc
  subst hc
  omega

theorem replaceZChar_digit (c : Char) (h : isDigitChar c = true) :
    replaceZChar c = [c] := by
  have hz := digit_beq_false c 'Z' h (by decide)
  simp [replaceZChar, hz]

theorem daysInMonth_le_31 (y m : Int) : daysInMonth y m ≤ 31 := by
  unfold daysInMonth
  split
  · split <;> omega
  · split <;> omega

theorem getDigits2_cons (a b : Char) (rest : List Char)
    (ha : isDigitChar a = true) (hb : isDigitChar b = true) :
    getDigits2 (a :: b :: rest) = some (digitVal a * 10 + digitVal b, rest) := by
  simp [getDigits2, ha, hb]

theorem getDigits4_cons (a b c d : Char) (rest : List Char)
    (ha : isDigitChar a = true) (hb : isDigitChar b = true)
    (hc : isDigitChar c = true) (hd : isDigitChar d = true) :
    getDigits4 (a :: b :: c :: d :: rest) =
      some (digitVal a * 1000 + digitVal b * 100 + digitVal c * 10 + digitVal d, rest) := by
  simp [getDigits4, ha, hb, hc, hd]

theorem sqliteDatetimeList_zform
    (y1 y2 y3 y4 m1 m2 d1 d2 h1 h2 n1 n2 p1 p2 : Char)
    (hy1 : isDigitChar y1 = true) (hy2 : isDigitChar y2 = true)
    (hy3 : isDigitChar y3 = true) (hy4 : isDigitChar y4 = true)
    (hm1 : isDigitChar m1 = true) (hm2 : isDigitChar m2 = true)
    (hd1 : isDigitChar d1 = true) (hd2 : isDigitChar d2 = true)
    (hh1 : isDigitChar h1 = true) (hh2 : isDigitChar h2 = true)
    (hn1 : isDigitChar n1 = true) (hn2 : isDigitChar n2 = true)
    (hp1 : isDigitChar p1 = true) (hp2 : isDigitChar p2 = true)
    (hmo1 : 1 ≤ digitVal m1 * 10 + digitVal m2)
    (hmo2 : digitVal m1 * 10 + digitVal m2 ≤ 12)
    (hdy1 : 1 ≤ digitVal d1 * 10 + digitVal d2)
    (hdy2 : digitVal d1 * 10 + digitVal d2 ≤ 31)
    (hhb : digitVal h1 * 10 + digitVal h2 ≤ 24)
    (hmib : digitVal n1 * 10 + digitVal n2 ≤ 59)
    (hsb : digitVal p1 * 10 + digitVal p2 ≤ 59) :
    sqliteDatetimeList [y1, y2, y3, y4, '-', m1, m2, '-', d1, d2, 'T',
        h1, h2, ':', n1, n2, ':', p1, p2, '+', '0', '0', ':', '0', '0'] =
      some (civilToEpoch
        ((digitVal y1 * 1000 + digitVal y2 * 100 + digitVal y3 * 10 + digitVal y4 : Nat) : Int)
        ((digitVal m1 * 10 + digitVal m2 : Nat) : Int)
        ((digitVal d1 * 10 + digitVal d2 : Nat) : Int)
        ((digitVal h1 * 10 + digitVal h2 : Nat) : Int)
        ((digitVal n1 * 10 + digitVal n2 : Nat) : Int)
        ((digitVal p1 * 10 + digitVal p2 : Nat) : Int)) := by
  have e_time : parseTime (h1 :: h2 :: ':' :: n1 :: n2 :: ':' :: p1 :: p2 ::
      ['+', '0', '0', ':', '0', '0']) =
      some (digitVal h1 * 10 + digitVal h2, digitVal n1 * 10 + digitVal n2,
        digitVal p1 * 10 + digitVal p2, ['+', '0', '0', ':', '0', '0']) := by
    rw [parseTime, getDigits2_cons h1 h2 _ hh1 hh2]
    simp only
    rw [getDigits2_cons n1 n2 _ hn1 hn2]
    simp only
    rw [if_pos (by rw [decide_eq_true hhb, decide_eq_true hmib]; rfl)]
    rw [getDigits2_cons p1 p2 _ hp1 hp2]
    simp only
    rw [if_pos hsb]
    rfl
  have e_tz : parseTz ['+', '0', '0', ':', '0', '0'] = some 0 := by decide
  have e_ttz : sqliteTimeTz (h1 :: h2 :: ':' :: n1 :: n2 :: ':' :: p1 :: p2 ::
      ['+', '0', '0', ':', '0', '0']) =
      some (digitVal h1 * 10 + digitVal h2, digitVal n1 * 10 + digitVal n2,
        digitVal p1 * 10 + digitVal p2, 0) := by
    rw [sqliteTimeTz, e_time]
    simp only [e_tz]
  have e_skip : skipSepRun ('T' :: h1 :: h2 :: ':' :: n1 :: n2 :: ':' :: p1 :: p2 ::
      ['+', '0', '0', ':', '0', '0']) =
      h1 :: h2 :: ':' :: n1 :: n2 :: ':' :: p1 :: p2 :: ['+', '0', '0', ':', '0', '0'] := by
    rw [skipSepRun, if_pos (by decide)]
    rw [skipSepRun]
    rw [if_neg (by rw [digit_beq_false h1 ' ' hh1 (by decide),
      digit_beq_false h1 'T' hh1 (by decide)]; simp)]
  have hsign : (y1 == '-') = false := digit_beq_false y1 '-' hy1 (by decide)
  rw [sqliteDatetimeList]
  rw [if_neg (by rw [hsign]; simp)]
  rw [sqliteDateBody]
  simp only
  rw [getDigits4_cons y1 y2 y3 y4 _ hy1 hy2 hy3 hy4]
  simp only
  rw [getDigits2_cons m1 m2 _ hm1 hm2]
  simp only
  rw [getDigits2_cons d1 d2 _ hd1 hd2]
  simp only
  rw [if_pos (by rw [decide_eq_true hmo1, decide_eq_true hmo2,
    decide_eq_true hdy1, decide_eq_true hdy2]; rfl)]
  rw [e_skip, e_ttz]
  simp only [one_mul, Int.natCast_zero, zero_mul, sub_zero]

theorem specParseZ_to_sqlite (c : String) (t : Int) (h : specParseZ c = some t) :
    sqliteDatetime (replaceZ c) = some t := by
  unfold specParseZ at h
  split at h
  case _ y1 y2 y3 y4 m1 m2 d1 d2 hc1 hc2 n1 n2 p1 p2 heq =>
    by_cases hdig : (isDigitChar y1 && isDigitChar y2 && isDigitChar y3 && isDigitChar y4 &&
        isDigitChar m1 && isDigitChar m2 && isDigitChar d1 && isDigitChar d2 &&
        isDigitChar hc1 && isDigitChar hc2 && isDigitChar n1 && isDigitChar n2 &&
        isDigitChar p1 && isDigitChar p2) = true
    · rw [if_pos hdig] at h
      simp only [] at h
      obtain ⟨⟨⟨⟨⟨⟨⟨⟨⟨⟨⟨⟨⟨hy1, hy2⟩, hy3⟩, hy4⟩, hm1⟩, hm2⟩, hd1⟩, hd2⟩, hh1⟩, hh2⟩,
        hn1⟩, hn2⟩, hp1⟩, hp2⟩ := by
          simpa only [Bool.and_eq_true] using hdig
      split at h
      · next hb =>
        simp only [Bool.and_eq_true, decide_eq_true_eq] at hb
        obtain ⟨⟨⟨⟨⟨⟨hbmo1, hbmo2⟩, hbd1⟩, hbd2i⟩, hbh⟩, hbmi⟩, hbs⟩ := hb
        have ht := Option.some.inj h
        rw [← ht]
        show sqliteDatetimeList (replaceZ c).data = _
        have rZd : replaceZChar '-' = ['-'] := rfl
        have rZT : replaceZChar 'T' = ['T'] := rfl
        have rZc : replaceZChar ':' = [':'] := rfl
        have rZZ : replaceZChar 'Z' = ['+', '0', '0', ':', '0', '0'] := rfl
        have hdata : (replaceZ c).data = [y1, y2, y3, y4, '-', m1, m2, '-', d1, d2, 'T',
            hc1, hc2, ':', n1, n2, ':', p1, p2, '+', '0', '0', ':', '0', '0'] := by
          show (c.data.map replaceZChar).flatten = _
          rw [heq]
          simp [replaceZChar_digit _ hy1, replaceZChar_digit _ hy2,
            replaceZChar_digit _ hy3, replaceZChar_digit _ hy4,
            replaceZChar_digit _ hm1, replaceZChar_digit _ hm2,
            replaceZChar_digit _ hd1, replaceZChar_digit _ hd2,
            replaceZChar_digit _ hh1, replaceZChar_digit _ hh2,
            replaceZChar_digit _ hn1, replaceZChar_digit _ hn2,
            replaceZChar_digit _ hp1, replaceZChar_digit _ hp2,
            rZd, rZT, rZc, rZZ]
        rw [hdata]
        have hd31 : digitVal d1 * 10 + digitVal d2 ≤ 31 := by
          have h31 := daysInMonth_le_31
            ((digitVal y1 * 1000 + digitVal y2 * 100 + digitVal y3 * 10 + digitVal y4 : Nat) : Int)
            ((digitVal m1 * 10 + digitVal m2 : Nat) : Int)
          omega
        exact sqliteDatetimeList_zform y1 y2 y3 y4 m1 m2 d1 d2 hc1 hc2 n1 n2 p1 p2
          hy1 hy2 hy3 hy4 hm1 hm2 hd1 hd2 hh1 hh2 hn1 hn2 hp1 hp2
          hbmo1 hbmo2 hbd1 hd31 (by omega) hbmi hbs
      · next hb => exact absurd h (by simp)
    · rw [if_neg hdig] at h
      exact absurd h (by simp)
  case _ => exact absurd h (by simp)

theorem deleteCond_eq_spec (now : Int) (days : Nat) (r : WorkOrderRow)
    (hwf : zClosedWFb r = true) :
    deleteCond now days r = specOldClosedB now days r := by
  unfold deleteCond specOldClosedB
  cases hc : r.closed_at with
  | none => rfl
  | some c =>
      dsimp only
      have hwf' : (specParseZ c).isSome = true := by
        unfold zClosedWFb at hwf
        rw [hc] at hwf
        exact hwf
      obtain ⟨t, ht⟩ := Option.isSome_iff_exists.mp hwf'
      rw [ht, specParseZ_to_sqlite c t ht]

theorem specOldClosedB_iff (now : Int) (days : Nat) (r : WorkOrderRow) :
    specOldClosedB now days r = true ↔ specOldClosed now days r := by
  unfold specOldClosedB specOldClosed
  cases hc : r.closed_at with
  | none => simp
  | some c =>
      cases hp : specParseZ c with
      | none => simp [hp]
      | some t => simp [hp, beq_iff_eq]

/-- C6: `delete_closed_older_than` deletes exactly the closed rows whose
`closed_at` reads as a `Z`-suffixed UTC timestamp strictly older than
`now` minus `days` whole days, returning their count (stated for stores
whose `closed_at` values are well-formed `Z` timestamps, as every
API-written store's are); a row whose `closed_at` the code's
`datetime(replace(...))` parse rejects is never deleted (fail closed);
and a row survives exactly when it is not such an old closed row — open
rows and closed rows within the window are never touched. -/
theorem C6_retention_delete (db : WorkOrdersDB) (days : Nat) (now : Int)
    (hd : 0 < days) :
    (ZClosedWF db →
      delete_closed_older_than db days now =
        (db.rows.countP (specOldClosedB now days),
         ⟨db.rows.filter (fun r => !(specOldClosedB now days r)), db.seq⟩)) ∧
    (∀ r ∈ db.rows, ∀ c, r.closed_at = some c →
      sqliteDatetime (replaceZ c) = none →
      r ∈ (delete_closed_older_than db days now).2.rows) ∧
    (ZClosedWF db → ∀ r ∈ db.rows,
      (r ∈ (delete_closed_older_than db days now).2.rows ↔ ¬ specOldClosed now days r)) := by
  refine ⟨?_, ?_, ?_⟩
  · intro hwf
    unfold delete_closed_older_than
    have hcnt : db.rows.countP (deleteCond now days) =
        db.rows.countP (specOldClosedB now days) :=
      List.countP_congr (fun r hr => by rw [deleteCond_eq_spec now days r (hwf r hr)])
    have hfil : db.rows.filter (fun r => !(deleteCond now days r)) =
        db.rows.filter (fun r => !(specOldClosedB now days r)) :=
      List.filter_congr (fun r hr => by rw [deleteCond_eq_spec now days r (hwf r hr)])
    rw [hcnt, hfil]
  · intro r hr c hc hnone
    unfold delete_closed_older_than
    simp only [List.mem_filter]
    refine ⟨hr, ?_⟩
    simp [deleteCond, hc, hnone]
  · intro hwf r hr
    unfold delete_closed_older_than
    simp only [List.mem_filter]
    rw [deleteCond_eq_spec now days r (hwf r hr)]
    constructor
    · rintro ⟨-, hb⟩
      rw [← specOldClosedB_iff now days r]
      simp only [Bool.not_eq_true'] at hb
      simp [hb]
    · intro hns
      refine ⟨hr, ?_⟩
      rw [← specOldClosedB_iff now days r] at hns
      simp only [Bool.not_eq_true] at hns
      simp [hns]

theorem C6_retention_delete_witness :
    0 < 30 ∧
    ((ZClosedWF sampleDB →
      delete_closed_older_than sampleDB 30 1770600119 =
        (sampleDB.rows.countP (specOldClosedB 1770600119 30),
         ⟨sampleDB.rows.filter (fun r => !(specOldClosedB 1770600119 30 r)), sampleDB.seq⟩)) ∧
    (∀ r ∈ sampleDB.rows, ∀ c, r.closed_at = some c →
      sqliteDatetime (replaceZ c) = none →
      r ∈ (delete_closed_older_than sampleDB 30 1770600119).2.rows) ∧
    (ZClosedWF sampleDB → ∀ r ∈ sampleDB.rows,
      (r ∈ (delete_closed_older_than sampleDB 30 1770600119).2.rows ↔
        ¬ specOldClosed 1770600119 30 r))) :=
  ⟨by decide, C6_retention_delete sampleDB 30 1770600119 (by decide)⟩



theorem charOfNat_toNat (n : Nat) (h : n < 55296) : (Char.ofNat n).toNat = n := by
  unfold Char.ofNat
  rw [dif_pos (Or.inl h)]
  simp [Char.ofNatAux, Char.toNat, Nat.toUInt32, UInt32.toNat, UInt32.ofNatCore]

theorem b64EncVal_le (n : Nat) : b64EncVal n ≤ 122 := by
  unfold b64EncVal
  split_ifs <;> omega

theorem b64EncVal_ne_61 (n : Nat) : b64EncVal n ≠ 61 := by
  unfold b64EncVal
  split_ifs <;> omega

theorem b64EncVal_ne_36 (n : Nat) : b64EncVal n ≠ 36 := by
  unfold b64EncVal
  split_ifs <;> omega

theorem b64DecVal_encVal : ∀ v, v < 64 → b64DecVal (b64EncVal v) = some v := by decide

theorem b64EncodeBytes_le : ∀ (l : List Nat), ∀ c ∈ b64EncodeBytes l, c ≤ 122
  | [] => by simp [b64EncodeBytes]
  | [b0] => by
      intro c hc
      simp only [b64EncodeBytes, List.mem_cons, List.not_mem_nil, or_false] at hc
      rcases hc with rfl | rfl | rfl | rfl <;> first | exact b64EncVal_le _ | omega
  | [b0, b1] => by
      intro c hc
      simp only [b64EncodeBytes, List.mem_cons, List.not_mem_nil, or_false] at hc
      rcases hc with rfl | rfl | rfl | rfl <;> first | exact b64EncVal_le _ | omega
  | b0 :: b1 :: b2 :: rest => by
      intro c hc
      simp only [b64EncodeBytes, List.mem_cons] at hc
      rcases hc with rfl | rfl | rfl | rfl | hc
      · exact b64EncVal_le _
      · exact b64EncVal_le _
      · exact b64EncVal_le _
      · exact b64EncVal_le _
      · exact b64EncodeBytes_le rest c hc

theorem b64EncodeBytes_ne_36 : ∀ (l : List Nat), ∀ c ∈ b64EncodeBytes l, c ≠ 36
  | [] => by simp [b64EncodeBytes]
  | [b0] => by
      intro c hc
      simp only [b64EncodeBytes, List.mem_cons, List.not_mem_nil, or_false] at hc
      rcases hc with rfl | rfl | rfl | rfl <;> first | exact b64EncVal_ne_36 _ | omega
  | [b0, b1] => by
      intro c hc
      simp only [b64EncodeBytes, List.mem_cons, List.not_mem_nil, or_false] at hc
      rcases hc with rfl | rfl | rfl | rfl <;> first | exact b64EncVal_ne_36 _ | omega
  | b0 :: b1 :: b2 :: rest => by
      intro c hc
      simp only [b64EncodeBytes, List.mem_cons] at hc
      rcases hc with rfl | rfl | rfl | rfl | hc
      · exact b64EncVal_ne_36 _
      · exact b64EncVal_ne_36 _
      · exact b64EncVal_ne_36 _
      · exact b64EncVal_ne_36 _
      · exact b64EncodeBytes_ne_36 rest c hc

theorem b64DecodeGo_data (v : Nat) (hv : v < 64) (rest : List Nat)
    (quadPos leftchar pads : Nat) (acc : List Nat) :
    b64DecodeGo (b64EncVal v :: rest) quadPos leftchar pads acc =
      (match quadPos with
       | 0 => b64DecodeGo rest 1 v 0 acc
       | 1 => b64DecodeGo rest 2 (v % 16) 0 ((leftchar * 4 + v / 16) :: acc)
       | 2 => b64DecodeGo rest 3 (v % 4) 0 ((leftchar * 16 + v / 4) :: acc)
       | _ => b64DecodeGo rest 0 0 0 ((leftchar * 64 + v) :: acc)) := by
  have h61 : (b64EncVal v == 61) = false := by
    simp [Nat.beq_eq_true_eq]
    exact b64EncVal_ne_61 v
  rw [b64DecodeGo, h61]
  simp only [Bool.false_eq_true, if_false, b64DecVal_encVal v hv]

theorem b64_roundtrip : ∀ (l : List Nat), (∀ b ∈ l, b < 256) → ∀ (acc : List Nat),
    b64DecodeGo (b64EncodeBytes l) 0 0 0 acc = some (acc.reverse ++ l)
  | [], _, acc => by simp [b64EncodeBytes, b64DecodeGo]
  | [b0], h, acc => by
      have hb0 : b0 < 256 := h b0 (by simp)
      simp only [b64EncodeBytes]
      rw [b64DecodeGo_data _ (by omega)]
      simp only
      rw [b64DecodeGo_data _ (by omega)]
      simp only
      rw [b64DecodeGo]
      simp only [Nat.reduceBEq]
      norm_num
      rw [b64DecodeGo]
      norm_num
      omega
  | [b0, b1], h, acc => by
      have hb0 : b0 < 256 := h b0 (by simp)
      have hb1 : b1 < 256 := h b1 (by simp)
      simp only [b64EncodeBytes]
      rw [b64DecodeGo_data _ (by omega)]
      simp only
      rw [b64DecodeGo_data _ (by omega)]
      simp only
      rw [b64DecodeGo_data _ (by omega)]
      simp only
      rw [b64DecodeGo]
      norm_num
      constructor <;> omega
  | b0 :: b1 :: b2 :: rest, h, acc => by
      have hb0 : b0 < 256 := h b0 (by simp)
      have hb1 : b1 < 256 := h b1 (by simp)
      have hb2 : b2 < 256 := h b2 (by simp)
      simp only [b64EncodeBytes]
      rw [b64DecodeGo_data _ (by omega)]
      simp only
      rw [b64DecodeGo_data _ (by omega)]
      simp only
      rw [b64DecodeGo_data _ (by omega)]
      simp only
      rw [b64DecodeGo_data _ (by omega)]
      simp only
      have e1 : b0 / 4 * 4 + (b0 % 4 * 16 + b1 / 16) / 16 = b0 := by omega
      have e2 : (b0 % 4 * 16 + b1 / 16) % 16 * 16 + (b1 % 16 * 4 + b2 / 64) / 4 = b1 := by
        omega
      have e3 : (b1 % 16 * 4 + b2 / 64) % 4 * 64 + b2 % 64 = b2 := by omega
      rw [e1, e2, e3]
      rw [b64_roundtrip rest (fun b hb => h b (by simp [hb])) (b2 :: b1 :: b0 :: acc)]
      simp

theorem map_toNat_ofNat : ∀ (l : List Nat), (∀ b ∈ l, b < 55296) →
    (l.map Char.ofNat).map Char.toNat = l
  | [], _ => rfl
  | b :: rest, h => by
      simp only [List.map_cons, List.cons.injEq]
      exact ⟨charOfNat_toNat b (h b (by simp)),
        map_toNat_ofNat rest (fun x hx => h x (by simp [hx]))⟩

theorem pyB64Decode_encode (bytes : List Nat) (hb : ∀ b ∈ bytes, b < 256) :
    pyB64Decode (asciiStr (b64EncodeBytes bytes)) = some bytes := by
  unfold pyB64Decode asciiStr
  rw [if_pos]
  · rw [map_toNat_ofNat _ (fun c hc => by
      have := b64EncodeBytes_le bytes c hc
      omega)]
    simpa using b64_roundtrip bytes hb []
  · rw [List.all_eq_true]
    intro c hc
    simp only [List.mem_map] at hc
    obtain ⟨code, hcode, rfl⟩ := hc
    have h122 := b64EncodeBytes_le bytes code hcode
    simp only [decide_eq_true_eq]
    rw [charOfNat_toNat code (by omega)]
    omega

theorem breakDollar_split : ∀ (l1 l2 : List Char), (∀ c ∈ l1, (c == '$') = false) →
    breakDollar (l1 ++ '$' :: l2) = (l1, some l2)
  | [], l2, _ => by simp [breakDollar]
  | c :: l1, l2, h => by
      have hc : (c == '$') = false := h c (by simp)
      have hrec : breakDollar (List.append l1 ('$' :: l2)) = (l1, some l2) :=
        breakDollar_split l1 l2 (fun x hx => h x (by simp [hx]))
      simp only [List.cons_append, breakDollar, hc, Bool.false_eq_true, if_false]
      rw [hrec]

theorem asciiStr_encode_no_dollar (bytes : List Nat) :
    ∀ c ∈ (asciiStr (b64EncodeBytes bytes)).data, (c == '$') = false := by
  intro c hc
  simp only [asciiStr, List.mem_map] at hc
  obtain ⟨code, hcode, rfl⟩ := hc
  have h36 := b64EncodeBytes_ne_36 bytes code hcode
  have h122 := b64EncodeBytes_le bytes code hcode
  rw [beq_eq_false_iff_ne]
  intro heq
  have : (Char.ofNat code).toNat = 36 := by rw [heq]; rfl
  rw [charOfNat_toNat code (by omega)] at this
  exact h36 this

theorem wordBytes_lt (w : Nat) : ∀ b ∈ wordBytes w, b < 256 := by
  intro b hb
  simp only [wordBytes, List.mem_cons, List.not_mem_nil, or_false] at hb
  rcases hb with rfl | rfl | rfl | rfl <;> exact Nat.mod_lt _ (by norm_num)

theorem sha256_bytes_lt (msg : List Nat) : ∀ b ∈ sha256 msg, b < 256 := by
  intro b hb
  simp only [sha256, wordBytes, List.mem_append, List.mem_cons, List.not_mem_nil,
    or_false] at hb
  omega

theorem sha256_length (msg : List Nat) : (sha256 msg).length = 32 := by
  simp [sha256, wordBytes]

theorem hmac_bytes_lt (key msg : List Nat) : ∀ b ∈ hmacSha256 key msg, b < 256 := by
  unfold hmacSha256
  exact sha256_bytes_lt _

theorem hmac_length (key msg : List Nat) : (hmacSha256 key msg).length = 32 := by
  unfold hmacSha256
  exact sha256_length _

theorem xorBytes_lt : ∀ (a c : List Nat), (∀ b ∈ a, b < 256) → (∀ b ∈ c, b < 256) →
    ∀ b ∈ xorBytes a c, b < 256
  | [], _, _, _ => by simp [xorBytes]
  | a :: as, [], _, _ => by simp [xorBytes]
  | a :: as, c :: cs, ha, hc => by
      intro b hb
      simp only [xorBytes, List.zipWith_cons_cons, List.mem_cons] at hb
      rcases hb with rfl | hb
      · have h1 : a < 2 ^ 8 := by simpa using ha a (by simp)
        have h2 : c < 2 ^ 8 := by simpa using hc c (by simp)
        simpa using Nat.xor_lt_two_pow h1 h2
      · exact xorBytes_lt as cs (fun x hx => ha x (by simp [hx]))
          (fun x hx => hc x (by simp [hx])) b hb

theorem xorBytes_length (a c : List Nat) :
    (xorBytes a c).length = min a.length c.length := List.length_zipWith _ _ _

theorem pbkdf2Loop_lt : ∀ (n : Nat) (pw u acc : List Nat),
    (∀ b ∈ acc, b < 256) → acc.length = 32 →
    (∀ b ∈ pbkdf2Loop n pw u acc, b < 256) ∧ (pbkdf2Loop n pw u acc).length = 32
  | 0, _, _, acc, hacc, hlen => ⟨hacc, hlen⟩
  | n + 1, pw, u, acc, hacc, hlen => by
      simp only [pbkdf2Loop]
      exact pbkdf2Loop_lt n pw _ _
        (xorBytes_lt acc _ hacc (hmac_bytes_lt pw u))
        (by rw [xorBytes_length, hlen, hmac_length]; rfl)

theorem pbkdf2_lt (pw salt : List Nat) (iters : Nat) :
    (∀ b ∈ pbkdf2HmacSha256 pw salt iters, b < 256) ∧
      (pbkdf2HmacSha256 pw salt iters).length = 32 := by
  unfold pbkdf2HmacSha256
  exact pbkdf2Loop_lt _ pw _ _ (hmac_bytes_lt pw _) (hmac_length pw _)

theorem natDecGo_digits : ∀ (fuel n : Nat) (acc : List Char),
    (∀ c ∈ acc, isDigitChar c = true) → ∀ c ∈ natDecGo fuel n acc, isDigitChar c = true
  | 0, _, acc, hacc => hacc
  | fuel + 1, n, acc, hacc => by
      rw [natDecGo]
      split
      · intro c hc
        rcases List.mem_cons.mp hc with rfl | hc
        · unfold isDigitChar
          rw [charOfNat_toNat (48 + n) (by omega)]
          simp only [Bool.and_eq_true, decide_eq_true_eq]
          omega
        · exact hacc c hc
      · refine natDecGo_digits fuel (n / 10) _ (fun c hc => ?_)
        rcases List.mem_cons.mp hc with rfl | hc
        · unfold isDigitChar
          rw [charOfNat_toNat (48 + n % 10) (by omega)]
          simp only [Bool.and_eq_true, decide_eq_true_eq]
          omega
        · exact hacc c hc

theorem natDec_digits (n : Nat) : ∀ c ∈ (natDec n).data, isDigitChar c = true :=
  natDecGo_digits (n + 1) n [] (by simp)

theorem natDec_no_dollar (n : Nat) : ∀ c ∈ (natDec n).data, (c == '$') = false :=
  fun c hc => digit_beq_false c '$' (natDec_digits n c hc) (by decide)

/-- `_verify_password` against a well-shaped four-field encoding, with the
salt and expected key held abstract. -/
theorem verify_fields (q : String) (salt dk : List Nat) (iters : Nat)
    (hsalt : ∀ b ∈ salt, b < 256) (hdk : ∀ b ∈ dk, b < 256)
    (hparse : pyInt (⟨(natDec iters).data⟩ : String) = some (iters : Int))
    (hi : 1 ≤ iters) :
    _verify_password q ("pbkdf2_sha256$" ++ natDec iters ++ "$" ++
        asciiStr (b64EncodeBytes salt) ++ "$" ++ asciiStr (b64EncodeBytes dk)) =
      (pbkdf2HmacSha256 (utf8Encode q) salt iters == dk) := by
  have h1 : "pbkdf2_sha256$".data = "pbkdf2_sha256".data ++ ['$'] := by decide
  have h2 : "$".data = ['$'] := by decide
  have hstored : ("pbkdf2_sha256$" ++ natDec iters ++ "$" ++
      asciiStr (b64EncodeBytes salt) ++ "$" ++ asciiStr (b64EncodeBytes dk)).data =
      "pbkdf2_sha256".data ++ '$' ::
        ((natDec iters).data ++ '$' ::
          ((asciiStr (b64EncodeBytes salt)).data ++ '$' ::
            (asciiStr (b64EncodeBytes dk)).data)) := by
    simp [String.data_append, h1, h2]
  have hnd_algo : ∀ c ∈ "pbkdf2_sha256".data, (c == '$') = false := by decide
  have hb1 := breakDollar_split "pbkdf2_sha256".data
    ((natDec iters).data ++ '$' ::
      ((asciiStr (b64EncodeBytes salt)).data ++ '$' ::
        (asciiStr (b64EncodeBytes dk)).data)) hnd_algo
  have hb2 := breakDollar_split (natDec iters).data
    ((asciiStr (b64EncodeBytes salt)).data ++ '$' ::
      (asciiStr (b64EncodeBytes dk)).data) (natDec_no_dollar iters)
  have hb3 := breakDollar_split (asciiStr (b64EncodeBytes salt)).data
    (asciiStr (b64EncodeBytes dk)).data (asciiStr_encode_no_dollar salt)
  unfold _verify_password
  rw [hstored, hb1]
  dsimp only
  rw [hb2]
  dsimp only
  rw [hb3]
  dsimp only
  rw [if_pos (show ((⟨"pbkdf2_sha256".data⟩ : String) == "pbkdf2_sha256") = true by decide)]
  rw [hparse]
  dsimp only
  have hsd : pyB64Decode (⟨(asciiStr (b64EncodeBytes salt)).data⟩ : String) = some salt := by
    rw [show (⟨(asciiStr (b64EncodeBytes salt)).data⟩ : String) =
      asciiStr (b64EncodeBytes salt) from rfl]
    exact pyB64Decode_encode salt hsalt
  rw [hsd]
  dsimp only
  have hdd : pyB64Decode (⟨(asciiStr (b64EncodeBytes dk)).data⟩ : String) = some dk := by
    rw [show (⟨(asciiStr (b64EncodeBytes dk)).data⟩ : String) =
      asciiStr (b64EncodeBytes dk) from rfl]
    exact pyB64Decode_encode dk hdk
  rw [hdd]
  dsimp only
  rw [if_neg (show ¬ ((iters : Int) < 1) by exact_mod_cast not_lt.mpr hi)]
  rw [Int.toNat_natCast]

theorem verify_hash_200000 (p q : String) (salt : List Nat)
    (hs : ∀ b ∈ salt, b < 256) :
    _verify_password q (_hash_password p salt 200000) =
      (pbkdf2HmacSha256 (utf8Encode q) salt 200000 ==
        pbkdf2HmacSha256 (utf8Encode p) salt 200000) := by
  show _verify_password q ("pbkdf2_sha256$" ++ natDec 200000 ++ "$" ++
      asciiStr (b64EncodeBytes salt) ++ "$" ++
      asciiStr (b64EncodeBytes (pbkdf2HmacSha256 (utf8Encode p) salt 200000))) = _
  exact verify_fields q salt (pbkdf2HmacSha256 (utf8Encode p) salt 200000) 200000
    hs (pbkdf2_lt (utf8Encode p) salt 200000).1 (by decide) (by norm_num)

theorem bytesToNat_lt : ∀ (l : List Nat), (∀ b ∈ l, b < 256) →
    bytesToNat l < 256 ^ l.length
  | [], _ => by simp [bytesToNat]
  | b :: rest, h => by
      have hb : b < 256 := h b (by simp)
      have hr := bytesToNat_lt rest (fun x hx => h x (by simp [hx]))
      simp only [bytesToNat, List.length_cons, pow_succ]
      calc b * 256 ^ rest.length + bytesToNat rest
          < b * 256 ^ rest.length + 256 ^ rest.length := by omega
        _ = (b + 1) * 256 ^ rest.length := by ring
        _ ≤ 256 * 256 ^ rest.length := Nat.mul_le_mul_right _ (by omega)
        _ = 256 ^ rest.length * 256 := by ring

theorem bytesToNat_inj : ∀ (l1 l2 : List Nat), l1.length = l2.length →
    (∀ b ∈ l1, b < 256) → (∀ b ∈ l2, b < 256) →
    bytesToNat l1 = bytesToNat l2 → l1 = l2
  | [], [], _, _, _, _ => rfl
  | [], _ :: _, hlen, _, _, _ => by simp at hlen
  | _ :: _, [], hlen, _, _, _ => by simp at hlen
  | b1 :: r1, b2 :: r2, hlen, h1, h2, heq => by
      simp only [List.length_cons, Nat.succ.injEq] at hlen
      have hv1 := bytesToNat_lt r1 (fun x hx => h1 x (by simp [hx]))
      have hv2 := bytesToNat_lt r2 (fun x hx => h2 x (by simp [hx]))
      simp only [bytesToNat, hlen] at heq
      rw [hlen] at hv1
      have hb : b1 = b2 := by
        rcases Nat.lt_trichotomy b1 b2 with hlt | heqb | hgt
        · exfalso
          have hstep : b1 * 256 ^ r2.length + bytesToNat r1 < b2 * 256 ^ r2.length := by
            calc b1 * 256 ^ r2.length + bytesToNat r1
                < b1 * 256 ^ r2.length + 256 ^ r2.length := by omega
              _ = (b1 + 1) * 256 ^ r2.length := by ring
              _ ≤ b2 * 256 ^ r2.length := Nat.mul_le_mul_right _ (by omega)
          omega
        · exact heqb
        · exfalso
          have hstep : b2 * 256 ^ r2.length + bytesToNat r2 < b1 * 256 ^ r2.length := by
            calc b2 * 256 ^ r2.length + bytesToNat r2
                < b2 * 256 ^ r2.length + 256 ^ r2.length := by omega
              _ = (b2 + 1) * 256 ^ r2.length := by ring
              _ ≤ b1 * 256 ^ r2.length := Nat.mul_le_mul_right _ (by omega)
          omega
      subst hb
      have hrest : bytesToNat r1 = bytesToNat r2 := by omega
      rw [bytesToNat_inj r1 r2 hlen (fun x hx => h1 x (by simp [hx]))
        (fun x hx => h2 x (by simp [hx])) hrest]

theorem strRep_ne (n m : Nat) (h : n ≠ m) : strRep m ≠ strRep n := by
  intro hcontra
  apply h
  have hdata : List.replicate m 'a' = List.replicate n 'a' := by
    have := congrArg String.data hcontra
    simpa [strRep] using this
  have := congrArg List.length hdata
  simpa using this.symm

/-- C7 is false exactly as stated: the PBKDF2 derived key has 32 bytes,
so infinitely many plaintexts collide with some other plaintext by
pigeonhole, and a colliding plaintext verifies against the other's hash. -/
theorem C7_counterexample :
    ¬ (∀ (p q : String) (salt : List Nat), (∀ b ∈ salt, b < 256) → q ≠ p →
        _verify_password q (_hash_password p salt 200000) = false) := by
  intro hclaim
  have hsaltb : ∀ b ∈ List.replicate 16 (0 : Nat), b < 256 := by
    intro b hb
    rw [List.eq_of_mem_replicate hb]
    norm_num
  have hcoll := Finite.exists_ne_map_eq_of_infinite
    (fun n : Nat =>
      (⟨bytesToNat (pbkdf2HmacSha256 (utf8Encode (strRep n)) (List.replicate 16 0) 200000),
        by
          have hp := pbkdf2_lt (utf8Encode (strRep n)) (List.replicate 16 0) 200000
          have hlt := bytesToNat_lt _ hp.1
          rw [hp.2] at hlt
          exact hlt⟩ : Fin (256 ^ 32)))
  obtain ⟨n, m, hnm, heq⟩ := hcoll
  simp only [Fin.mk.injEq] at heq
  have hp1 := pbkdf2_lt (utf8Encode (strRep n)) (List.replicate 16 0) 200000
  have hp2 := pbkdf2_lt (utf8Encode (strRep m)) (List.replicate 16 0) 200000
  have hdkeq := bytesToNat_inj _ _ (by rw [hp1.2, hp2.2]) hp1.1 hp2.1 heq
  have hfalse := hclaim (strRep n) (strRep m) (List.replicate 16 0) hsaltb
    (strRep_ne n m hnm)
  rw [verify_hash_200000 (strRep n) (strRep m) (List.replicate 16 0) hsaltb] at hfalse
  rw [← hdkeq] at hfalse
  simp at hfalse

/-- C7 (amended): verifying the same plaintext against its own hash
(16-byte salt, the default 200000 iterations) always succeeds, and a
plaintext `q` verifies against `p`'s hash exactly when PBKDF2-HMAC-SHA256
derives the same key for `q` as for `p` under that salt and iteration
count — false for every practically distinct plaintext, but collisions
exist by pigeonhole, so "false for every other plaintext" does not hold
universally. -/
theorem C7_roundtrip_amended (p q : String) (salt : List Nat)
    (hs : ∀ b ∈ salt, b < 256) :
    _verify_password p (_hash_password p salt 200000) = true ∧
    (_verify_password q (_hash_password p salt 200000) = true ↔
      pbkdf2HmacSha256 (utf8Encode q) salt 200000 =
        pbkdf2HmacSha256 (utf8Encode p) salt 200000) := by
  constructor
  · rw [verify_hash_200000 p p salt hs]
    simp
  · rw [verify_hash_200000 p q salt hs]
    exact beq_iff_eq

theorem C7_roundtrip_amended_witness :
    (∀ b ∈ List.replicate 16 (0 : Nat), b < 256) ∧
    (_verify_password "pw" (_hash_password "pw" (List.replicate 16 0) 200000) = true ∧
      (_verify_password "other" (_hash_password "pw" (List.replicate 16 0) 200000) = true ↔
        pbkdf2HmacSha256 (utf8Encode "other") (List.replicate 16 0) 200000 =
          pbkdf2HmacSha256 (utf8Encode "pw") (List.replicate 16 0) 200000)) :=
  ⟨by decide, C7_roundtrip_amended "pw" "other" (List.replicate 16 0) (by decide)⟩

/-- C8 is false as stated: this encoding is malformed (its salt field is
not valid base64 — it contains `!`), yet `_verify_password` returns
`true` for the matching plaintext, because CPython's lenient base64
decoder silently discards the invalid character. -/
theorem C8_counterexample :
    wellFormedEncoding
      "pbkdf2_sha256$1$AAAAAAAAAAAAAAAAAAAAAA!==$ww4SWtYWsvVgc6ynC/DAAJF37KXiVTJjocjejhxj1oQ=" = false ∧
    _verify_password "pw"
      "pbkdf2_sha256$1$AAAAAAAAAAAAAAAAAAAAAA!==$ww4SWtYWsvVgc6ynC/DAAJF37KXiVTJjocjejhxj1oQ=" = true := by
  constructor
  · decide
  · decide

/-- C8 (amended): `_verify_password` never lets an exception escape (it
is a total Boolean function), and it returns `false` on every
structurally malformed encoding: fewer than four `$`-separated fields, a
wrong algorithm tag, an iteration field that `int(...)` rejects or that
parses below 1, or a salt/key field the lenient base64 decoder raises
on.  (A string that is malformed only per the strict base64 grammar can
still verify, as the counterexample shows.) -/
theorem C8_malformed_false (p s : String)
    (h : structurallyMalformed s = true) : _verify_password p s = false := by
  unfold structurallyMalformed at h
  unfold _verify_password
  rcases hb1 : breakDollar s.data with ⟨algo, _ | r1⟩
  · rfl
  · rw [hb1] at h
    dsimp only at h ⊢
    rcases hb2 : breakDollar r1 with ⟨itersS, _ | r2⟩
    · rfl
    · rw [hb2] at h
      dsimp only at h ⊢
      rcases hb3 : breakDollar r2 with ⟨saltB64, _ | dkB64⟩
      · rfl
      · rw [hb3] at h
        dsimp only at h ⊢
        by_cases halgo : ((⟨algo⟩ : String) == "pbkdf2_sha256") = true
        · rw [if_pos halgo]
          rcases hpi : pyInt (⟨itersS⟩ : String) with _ | iters
          · rfl
          · rw [hpi] at h
            dsimp only at h ⊢
            rcases hps : pyB64Decode (⟨saltB64⟩ : String) with _ | salt
            · rfl
            · rw [hps] at h
              dsimp only at h ⊢
              rcases hpd : pyB64Decode (⟨dkB64⟩ : String) with _ | dk
              · rfl
              · rw [hpd] at h
                dsimp only at h ⊢
                simp only [halgo, Bool.not_true, Option.isNone_some, Bool.or_false,
                  Bool.false_or, decide_eq_true_eq] at h
                rw [if_pos h]
        · rw [if_neg halgo]

theorem C8_malformed_false_witness :
    structurallyMalformed "not a valid encoding" = true ∧
    _verify_password "pw" "not a valid encoding" = false :=
  ⟨by decide, C8_malformed_false "pw" "not a valid encoding" (by decide)⟩


end Workorders
